import Mathlib

/-!
Verification development for the veritss coordinator-signer repository.

The Rust source is embedded shallowly: `BTreeMap<u16, _>` becomes a
key-sorted association list over `Nat`, fallible functions return
`Except`, and the FROST backend (out of scope for the repository, used
as a black box) is a function parameter.  Validator identities are
modelled as their byte fingerprints (`List Nat`).
-/

namespace Veritss

/-- A validator identity is its byte fingerprint. -/
abbrev Identity := List Nat

/-- Key order on association-list entries, mirroring `BTreeMap<u16, _>`. -/
def keyLt {α : Type} (a b : Nat × α) : Prop := a.1 < b.1

instance keyLtDecidable {α : Type} : DecidableRel (@keyLt α) :=
  fun a b => Nat.decLt a.1 b.1

instance keyLtAntisymm {α : Type} : IsAntisymm (Nat × α) keyLt :=
  ⟨fun _ _ h h' => absurd h' (Nat.lt_asymm h)⟩

/-- Entry insertion of a `BTreeMap`: keeps keys strictly sorted,
replaces the value on an existing key. -/
def btreeInsert {α : Type} (k : Nat) (v : α) : List (Nat × α) → List (Nat × α)
  | [] => [(k, v)]
  | (k', v') :: rest =>
    if k < k' then (k, v) :: (k', v') :: rest
    else if k = k' then (k, v) :: rest
    else (k', v') :: btreeInsert k v rest

/-- Map lookup (`BTreeMap::get`). -/
def btreeGet? {α : Type} (k : Nat) : List (Nat × α) → Option α
  | [] => none
  | (k', v') :: rest => if k = k' then some v' else btreeGet? k rest

/-- Key membership (`BTreeMap::contains_key`). -/
def keyMem {α : Type} (k : Nat) (l : List (Nat × α)) : Bool :=
  l.any (fun e => e.1 = k)

/-- Whether a value occurs in the map (`values().any(...)`). -/
def valMem {α : Type} [DecidableEq α] (v : α) (l : List (Nat × α)) : Bool :=
  l.any (fun e => e.2 = v)

/-- Strictly-increasing-key sortedness of the association list. -/
def keySorted {α : Type} (l : List (Nat × α)) : Prop :=
  List.Sorted keyLt l

theorem keyMem_eq_false_iff {α : Type} {k : Nat} {l : List (Nat × α)} :
    keyMem k l = false ↔ ∀ e ∈ l, e.1 ≠ k := by
  simp [keyMem]

theorem btreeInsert_cons {α : Type} (k : Nat) (v : α) (x : Nat × α) (xs : List (Nat × α)) :
    btreeInsert k v (x :: xs) =
      if k < x.1 then (k, v) :: x :: xs
      else if k = x.1 then (k, v) :: xs
      else x :: btreeInsert k v xs := by
  obtain ⟨a, b⟩ := x
  rfl

theorem btreeGet?_cons {α : Type} (k : Nat) (x : Nat × α) (xs : List (Nat × α)) :
    btreeGet? k (x :: xs) = if k = x.1 then some x.2 else btreeGet? k xs := by
  obtain ⟨a, b⟩ := x
  rfl

theorem keyMem_cons {α : Type} (k : Nat) (x : Nat × α) (xs : List (Nat × α)) :
    keyMem k (x :: xs) = (decide (x.1 = k) || keyMem k xs) := by
  simp [keyMem]

theorem btreeInsert_mem_of_mem {α : Type} {l : List (Nat × α)} {k : Nat} {v : α} {b : Nat × α}
    (hb : b ∈ btreeInsert k v l) : b = (k, v) ∨ b ∈ l := by
  induction l with
  | nil => simpa [btreeInsert] using hb
  | cons e rest ih =>
    by_cases h1 : k < e.1
    · simp only [btreeInsert, if_pos h1, List.mem_cons] at hb
      rcases hb with hb | hb | hb
      · exact Or.inl hb
      · exact Or.inr (by simp [hb])
      · exact Or.inr (by simp [hb])
    · by_cases h2 : k = e.1
      · simp only [btreeInsert, if_neg h1, if_pos h2, List.mem_cons] at hb
        rcases hb with hb | hb
        · exact Or.inl hb
        · exact Or.inr (by simp [hb])
      · simp only [btreeInsert, if_neg h1, if_neg h2, List.mem_cons] at hb
        rcases hb with hb | hb
        · exact Or.inr (by simp [hb])
        · rcases ih hb with hb' | hb'
          · exact Or.inl hb'
          · exact Or.inr (by simp [hb'])

theorem btreeInsert_sorted {α : Type} {l : List (Nat × α)} (k : Nat) (v : α)
    (h : keySorted l) : keySorted (btreeInsert k v l) := by
  induction l with
  | nil => simp [btreeInsert, keySorted]
  | cons e rest ih =>
    obtain ⟨he, hrest⟩ := List.sorted_cons.mp h
    by_cases h1 : k < e.1
    · simp only [btreeInsert, if_pos h1]
      refine List.sorted_cons.mpr ⟨?_, h⟩
      intro b hb
      rcases List.mem_cons.mp hb with hb | hb
      · simpa [keyLt, hb] using h1
      · exact Nat.lt_trans h1 (he b hb)
    · by_cases h2 : k = e.1
      · simp only [btreeInsert, if_neg h1, if_pos h2]
        refine List.sorted_cons.mpr ⟨?_, hrest⟩
        intro b hb
        simpa [keyLt, h2] using he b hb
      · simp only [btreeInsert, if_neg h1, if_neg h2]
        refine List.sorted_cons.mpr ⟨?_, ih hrest⟩
        intro b hb
        have hk : e.1 < k := by omega
        rcases btreeInsert_mem_of_mem hb with hb' | hb'
        · simpa [keyLt, hb'] using hk
        · exact he b hb'

theorem btreeInsert_perm_fresh {α : Type} {l : List (Nat × α)} {k : Nat} (v : α)
    (h : keyMem k l = false) : List.Perm (btreeInsert k v l) ((k, v) :: l) := by
  induction l with
  | nil => simp [btreeInsert]
  | cons e rest ih =>
    have hne : e.1 ≠ k := (keyMem_eq_false_iff.mp h) e (by simp)
    have hrest : keyMem k rest = false := by
      refine keyMem_eq_false_iff.mpr ?_
      intro b hb
      exact (keyMem_eq_false_iff.mp h) b (by simp [hb])
    by_cases h1 : k < e.1
    · simp [btreeInsert, h1]
    · have h2 : ¬ k = e.1 := fun hk => hne hk.symm
      simp only [btreeInsert, if_neg h1, if_neg h2]
      exact List.Perm.trans (List.Perm.cons e (ih hrest)) (List.Perm.swap _ _ _)

theorem sorted_perm_eq {α : Type} {l l' : List (Nat × α)}
    (hp : List.Perm l l') (h : keySorted l) (h' : keySorted l') : l = l' :=
  List.eq_of_perm_of_sorted hp h h'

/-- The three FROST ciphersuites (`CryptoType` in `crypto/mod.rs`). -/
inductive CryptoType
  | ed25519
  | secp256k1
  | secp256k1Tr
  deriving DecidableEq, Repr

/-- The session-level error type (`crypto/session/error.rs`); only the
constructors used by the embedded functions are carried.  `Panic` stands
for a Rust `unwrap()` failure (abnormal termination), which the shallow
embedding surfaces as an error value. -/
inductive SessionError
  | InvalidParticipants (msg : String)
  | InvalidMinSigners (got expected : Nat)
  | InvalidRequest (msg : String)
  | InternalError (msg : String)
  | Panic (msg : String)
  deriving DecidableEq, Repr

/-- Embedding of `utils::list_hash`: SHA-256 over the concatenation of the pieces.
The hash itself is modelled as the identity on the concatenated byte
stream (an ideal, collision-free hash): collision-resistance of SHA-256
is an assumption, not a provable fact, so theorems about digests are
really theorems about the hash inputs. -/
def list_hash (data : List (List Nat)) : List Nat :=
  data.flatten

/-- One byte tagging a ciphersuite inside hash inputs. -/
def cryptoTag : CryptoType → Nat
  | .ed25519 => 0
  | .secp256k1 => 1
  | .secp256k1Tr => 2

/-- Big-endian two-byte encoding of a `u16`. -/
def encU16 (n : Nat) : List Nat := [n / 256 % 256, n % 256]

/-- Byte encoding of the sorted participant map: identifier bytes
followed by the identity's fingerprint bytes, in key order. -/
def encParticipants (pm : List (Nat × Identity)) : List Nat :=
  (pm.map (fun e => encU16 e.1 ++ e.2)).flatten

/-- Modelled from the spec: `SessionId::new` lives in
`crypto/session/session_id.rs`, which is not part of the provided
sources.  Per the spec, SessionId = H(ciphersuite ‖ threshold ‖ sorted
participant list ‖ salt), computed over the key-sorted participant map;
`H` is `list_hash` (ideal hash, see there), and the salt is a fixed
byte string. -/
def SessionId.new (c : CryptoType) (minSigners : Nat) (pm : List (Nat × Identity)) : List Nat :=
  list_hash [[cryptoTag c], encU16 minSigners, encParticipants pm, [115, 97, 108, 116]]

/-- Coordinator-side session record (`Session<VI>` in
`crypto/session.rs`); the DKG state machine and the channel handles are
outside this embedding's claims, so only the identifying fields are
kept. -/
structure CoordSession where
  sessionId : List Nat
  cryptoType : CryptoType
  minSigners : Nat
  participants : List (Nat × Identity)
  deriving DecidableEq, Repr

/-- The participant-map construction loop at the top of `Session::new`:
rejects a duplicate identifier, then a duplicate identity, then inserts
into the `BTreeMap`. -/
def buildParticipantsMap (acc : List (Nat × Identity)) :
    List (Nat × Identity) → Except SessionError (List (Nat × Identity))
  | [] => .ok acc
  | (id, identity) :: rest =>
    if keyMem id acc then
      .error (.InvalidParticipants ("duplicate participant id"))
    else if valMem identity acc then
      .error (.InvalidParticipants ("duplicate participant identity"))
    else
      buildParticipantsMap (btreeInsert id identity acc) rest

/-- Embedding of `Session::new` (coordinator side, `crypto/session.rs`): builds the
participant map with duplicate checks, then requires
`participants_map.len() >= min_signers` and
`participants_map.len() <= 255`, then computes the deterministic
SessionId.  Note the source has no lower bound on `min_signers`. -/
def Session.new (cryptoType : CryptoType) (participants : List (Nat × Identity))
    (minSigners : Nat) : Except SessionError CoordSession := do
  let pm ← buildParticipantsMap [] participants
  if pm.length < minSigners then
    .error (.InvalidMinSigners minSigners pm.length)
  else if pm.length > 255 then
    .error (.InvalidParticipants ("max signers is 255"))
  else
    .ok { sessionId := SessionId.new cryptoType minSigners pm
          cryptoType := cryptoType
          minSigners := minSigners
          participants := pm }

theorem btreeInsert_length_fresh {α : Type} {l : List (Nat × α)} {k : Nat} (v : α)
    (h : keyMem k l = false) : (btreeInsert k v l).length = l.length + 1 := by
  have := (btreeInsert_perm_fresh v h).length_eq
  simpa using this

theorem buildParticipantsMap_length :
    ∀ (ps acc pm : List (Nat × Identity)),
      buildParticipantsMap acc ps = .ok pm → pm.length = acc.length + ps.length := by
  intro ps
  induction ps with
  | nil =>
    intro acc pm h
    simp [buildParticipantsMap] at h
    simp [h]
  | cons e rest ih =>
    intro acc pm h
    obtain ⟨id, identity⟩ := e
    by_cases h1 : keyMem id acc
    · simp [buildParticipantsMap, h1] at h
    · by_cases h2 : valMem identity acc
      · simp [buildParticipantsMap, h1, h2] at h
      · simp only [buildParticipantsMap, h1, h2, Bool.false_eq_true, if_false,
          if_neg] at h
        have := ih (btreeInsert id identity acc) pm h
        rw [this, btreeInsert_length_fresh identity (by simpa using h1)]
        simp
        omega

theorem Session.new_ok_elim {c : CryptoType} {P : List (Nat × Identity)} {m : Nat}
    {s : CoordSession} (h : Session.new c P m = .ok s) :
    ∃ pm, buildParticipantsMap [] P = .ok pm ∧ ¬ pm.length < m ∧ ¬ pm.length > 255 ∧
      s = { sessionId := SessionId.new c m pm, cryptoType := c, minSigners := m,
            participants := pm } := by
  cases h' : buildParticipantsMap [] P with
  | error e => simp [Session.new, h', Bind.bind, Except.bind] at h
  | ok pm =>
    refine ⟨pm, rfl, ?_⟩
    simp only [Session.new, h', Bind.bind, Except.bind] at h
    by_cases hlt : pm.length < m
    · rw [if_pos hlt] at h
      exact absurd h (by simp)
    · rw [if_neg hlt] at h
      by_cases hgt : pm.length > 255
      · rw [if_pos hgt] at h
        exact absurd h (by simp)
      · rw [if_neg hgt] at h
        have hs := Except.ok.inj h
        exact ⟨hlt, hgt, hs.symm⟩

/-- Claim C3 — counterexample: coordinator-side `Session::new` accepts
`min_signers = 0` (with one participant), so the claimed bound
`threshold ≥ 1` is not enforced. -/
theorem c3_counterexample :
    (Session.new CryptoType.ed25519 [(1, [10])] 0).isOk = true ∧ ¬ (1 ≤ 0) := by
  exact ⟨by decide, by decide⟩

/-- Claim C3 (amended): `Session::new` succeeds only if
`min_signers ≤ |participants| ≤ 255` (duplicate identifiers or
identities are also rejected), and it returns an error whenever
`|participants| < min_signers` or `|participants| > 255`; a lower bound
`min_signers ≥ 1` is not checked. -/
theorem c3_session_new_bounds (c : CryptoType) (P : List (Nat × Identity)) (m : Nat) :
    (∀ s, Session.new c P m = .ok s → m ≤ P.length ∧ P.length ≤ 255) ∧
    (P.length < m ∨ 255 < P.length → (Session.new c P m).isOk = false) := by
  constructor
  · intro s h
    obtain ⟨pm, hbuild, hlt, hgt, _⟩ := Session.new_ok_elim h
    have hlen := buildParticipantsMap_length P [] pm hbuild
    simp at hlen
    omega
  · intro hbad
    cases h' : buildParticipantsMap [] P with
    | error e => simp [Session.new, h', Bind.bind, Except.bind, Except.isOk, Except.toBool]
    | ok pm =>
      have hlen := buildParticipantsMap_length P [] pm h'
      simp at hlen
      simp only [Session.new, h', Bind.bind, Except.bind]
      split_ifs with hlt hgt
      · simp [Except.isOk, Except.toBool]
      · simp [Except.isOk, Except.toBool]
      · omega

/-- Witness for C3's amended theorem at concrete inputs. -/
theorem c3_session_new_bounds_witness :
    (2 ≤ 2 ∧ 2 ≤ 255) ∧
      (Session.new CryptoType.ed25519 [(1, [10])] 2).isOk = false := by
  constructor
  · exact (c3_session_new_bounds CryptoType.ed25519 [(1, [10]), (2, [20])] 2).1
      { sessionId := SessionId.new CryptoType.ed25519 2 [(1, [10]), (2, [20])],
        cryptoType := CryptoType.ed25519, minSigners := 2,
        participants := [(1, [10]), (2, [20])] } (by rfl)
  · exact (c3_session_new_bounds CryptoType.ed25519 [(1, [10])] 2).2 (by decide)

theorem buildParticipantsMap_ok_spec :
    ∀ (ps acc pm : List (Nat × Identity)), keySorted acc →
      buildParticipantsMap acc ps = .ok pm →
      keySorted pm ∧ List.Perm pm (acc ++ ps) := by
  intro ps
  induction ps with
  | nil =>
    intro acc pm hs h
    simp [buildParticipantsMap] at h
    subst h
    exact ⟨hs, by simp⟩
  | cons e rest ih =>
    intro acc pm hs h
    obtain ⟨id, identity⟩ := e
    by_cases h1 : keyMem id acc
    · simp [buildParticipantsMap, h1] at h
    · by_cases h2 : valMem identity acc
      · simp [buildParticipantsMap, h1, h2] at h
      · simp only [buildParticipantsMap, h1, h2, Bool.false_eq_true, if_false, if_neg] at h
        have hs' : keySorted (btreeInsert id identity acc) := btreeInsert_sorted id identity hs
        obtain ⟨hsort, hperm⟩ := ih (btreeInsert id identity acc) pm hs' h
        refine ⟨hsort, ?_⟩
        have p1 : List.Perm (btreeInsert id identity acc ++ rest)
            (((id, identity) :: acc) ++ rest) :=
          List.Perm.append_right rest (btreeInsert_perm_fresh identity (by simpa using h1))
        have p2 : List.Perm (acc ++ (id, identity) :: rest) ((id, identity) :: (acc ++ rest)) :=
          List.perm_middle
        exact ((hperm.trans p1).trans p2.symm)

theorem buildParticipantsMap_append (l₁ l₂ acc : List (Nat × Identity)) :
    buildParticipantsMap acc (l₁ ++ l₂) =
      (buildParticipantsMap acc l₁).bind (fun a => buildParticipantsMap a l₂) := by
  induction l₁ generalizing acc with
  | nil => simp [buildParticipantsMap, Except.bind]
  | cons e rest ih =>
    obtain ⟨id, identity⟩ := e
    by_cases h1 : keyMem id acc
    · simp [buildParticipantsMap, h1, Except.bind]
    · by_cases h2 : valMem identity acc
      · simp [buildParticipantsMap, h1, h2, Except.bind]
      · simp only [List.cons_append, buildParticipantsMap, h1, h2, Bool.false_eq_true,
          if_false, if_neg]
        exact ih (btreeInsert id identity acc)

/-- Replace the value stored at key `k` (auxiliary, used to relate two
`Session::new` runs whose inputs differ in a single participant). -/
def replaceVal {α : Type} (k : Nat) (v' : α) (l : List (Nat × α)) : List (Nat × α) :=
  l.map (fun e => if e.1 = k then (k, v') else e)

theorem replaceVal_cons {α : Type} (k : Nat) (v' : α) (e : Nat × α) (l : List (Nat × α)) :
    replaceVal k v' (e :: l) = (if e.1 = k then (k, v') else e) :: replaceVal k v' l := rfl

theorem replaceVal_head_key {α : Type} (k : Nat) (v' : α) (e : Nat × α) :
    (if e.1 = k then (k, v') else e).1 = e.1 := by
  by_cases he : e.1 = k
  · rw [if_pos he, he]
  · rw [if_neg he]

theorem replaceVal_keyMem {α : Type} (k x : Nat) (v' : α) (l : List (Nat × α)) :
    keyMem x (replaceVal k v' l) = keyMem x l := by
  induction l with
  | nil => rfl
  | cons e rest ih =>
    rw [replaceVal_cons, keyMem_cons, keyMem_cons, replaceVal_head_key, ih]

theorem replaceVal_of_not_mem {α : Type} {k : Nat} {l : List (Nat × α)} (v' : α)
    (h : keyMem k l = false) : replaceVal k v' l = l := by
  induction l with
  | nil => rfl
  | cons e rest ih =>
    have hne : e.1 ≠ k := (keyMem_eq_false_iff.mp h) e (by simp)
    have hrest : keyMem k rest = false :=
      keyMem_eq_false_iff.mpr (fun b hb => (keyMem_eq_false_iff.mp h) b (by simp [hb]))
    rw [replaceVal_cons, if_neg hne, ih hrest]

theorem btreeInsert_replace_same {α : Type} {l : List (Nat × α)} {k : Nat} (v v' : α)
    (h : keyMem k l = false) :
    replaceVal k v' (btreeInsert k v l) = btreeInsert k v' l := by
  induction l with
  | nil =>
    show replaceVal k v' [(k, v)] = [(k, v')]
    rw [replaceVal_cons, if_pos rfl]
    rfl
  | cons e rest ih =>
    have hne : e.1 ≠ k := (keyMem_eq_false_iff.mp h) e (by simp)
    have hrest : keyMem k rest = false :=
      keyMem_eq_false_iff.mpr (fun b hb => (keyMem_eq_false_iff.mp h) b (by simp [hb]))
    rw [btreeInsert_cons, btreeInsert_cons]
    by_cases h1 : k < e.1
    · rw [if_pos h1, if_pos h1, replaceVal_cons, if_pos rfl, replaceVal_cons, if_neg hne,
        replaceVal_of_not_mem v' hrest]
    · have h2 : ¬ k = e.1 := fun hk => hne hk.symm
      rw [if_neg h1, if_neg h1, if_neg h2, if_neg h2, replaceVal_cons, if_neg hne, ih hrest]

theorem btreeInsert_replaceVal_comm {α : Type} {l : List (Nat × α)} {k id : Nat} (v' w : α)
    (hne : id ≠ k) :
    btreeInsert id w (replaceVal k v' l) = replaceVal k v' (btreeInsert id w l) := by
  induction l with
  | nil =>
    show btreeInsert id w [] = replaceVal k v' [(id, w)]
    rw [replaceVal_cons, if_neg hne]
    rfl
  | cons e rest ih =>
    rw [replaceVal_cons, btreeInsert_cons, btreeInsert_cons, replaceVal_head_key]
    by_cases hlt : id < e.1
    · rw [if_pos hlt, if_pos hlt, replaceVal_cons, replaceVal_cons, if_neg hne]
    · rw [if_neg hlt, if_neg hlt]
      by_cases heq : id = e.1
      · rw [if_pos heq, if_pos heq, replaceVal_cons, if_neg hne]
      · rw [if_neg heq, if_neg heq, replaceVal_cons, ih]

theorem keyMem_btreeInsert_self {α : Type} (k : Nat) (v : α) (l : List (Nat × α)) :
    keyMem k (btreeInsert k v l) = true := by
  induction l with
  | nil => simp [btreeInsert, keyMem]
  | cons e rest ih =>
    rw [btreeInsert_cons]
    by_cases h1 : k < e.1
    · rw [if_pos h1, keyMem_cons]
      simp
    · by_cases h2 : k = e.1
      · rw [if_neg h1, if_pos h2, keyMem_cons]
        simp
      · rw [if_neg h1, if_neg h2, keyMem_cons, ih]
        simp

theorem keyMem_btreeInsert_of {α : Type} {k x : Nat} {l : List (Nat × α)} (v : α)
    (h : keyMem x l = true) : keyMem x (btreeInsert k v l) = true := by
  induction l with
  | nil => simp [keyMem] at h
  | cons e rest ih =>
    rw [keyMem_cons] at h
    rw [btreeInsert_cons]
    by_cases h1 : k < e.1
    · rw [if_pos h1, keyMem_cons, keyMem_cons, h]
      simp
    · by_cases h2 : k = e.1
      · rw [if_neg h1, if_pos h2, keyMem_cons]
        rcases Bool.or_eq_true_iff.mp h with h' | h'
        · have : x = e.1 := (of_decide_eq_true h').symm
          simp [h2, this]
        · rw [h']
          simp
      · rw [if_neg h1, if_neg h2, keyMem_cons]
        rcases Bool.or_eq_true_iff.mp h with h' | h'
        · rw [h']
          simp
        · rw [ih h']
          simp

theorem buildParticipantsMap_replaceVal {v' : Identity} {k : Nat} :
    ∀ (post acc pm pm' : List (Nat × Identity)), keyMem k acc = true →
      buildParticipantsMap acc post = .ok pm →
      buildParticipantsMap (replaceVal k v' acc) post = .ok pm' →
      pm' = replaceVal k v' pm := by
  intro post
  induction post with
  | nil =>
    intro acc pm pm' hk h h'
    simp [buildParticipantsMap] at h h'
    rw [← h, ← h']
  | cons e rest ih =>
    intro acc pm pm' hk h h'
    obtain ⟨id, identity⟩ := e
    by_cases h1 : keyMem id acc
    · simp [buildParticipantsMap, h1] at h
    · have h1' : keyMem id (replaceVal k v' acc) = false := by
        rw [replaceVal_keyMem]
        simpa using h1
      by_cases h2 : valMem identity acc
      · simp [buildParticipantsMap, h1, h2] at h
      · by_cases h2' : valMem identity (replaceVal k v' acc)
        · simp [buildParticipantsMap, h1', h2'] at h'
        · simp only [buildParticipantsMap, h1, h2, h1', h2', Bool.false_eq_true, if_false,
            if_neg] at h h'
          have hidk : id ≠ k := by
            intro hik
            rw [hik] at h1
            exact h1 (by simpa using hk)
          rw [btreeInsert_replaceVal_comm v' identity hidk] at h'
          exact ih (btreeInsert id identity acc) pm pm'
            (keyMem_btreeInsert_of identity hk) h h'

theorem btreeGet?_insert_self {α : Type} (k : Nat) (v : α) (l : List (Nat × α)) :
    btreeGet? k (btreeInsert k v l) = some v := by
  induction l with
  | nil =>
    show btreeGet? k [(k, v)] = some v
    rw [btreeGet?_cons, if_pos rfl]
  | cons e rest ih =>
    rw [btreeInsert_cons]
    by_cases h1 : k < e.1
    · rw [if_pos h1, btreeGet?_cons, if_pos rfl]
    · by_cases h2 : k = e.1
      · rw [if_neg h1, if_pos h2, btreeGet?_cons, if_pos rfl]
      · rw [if_neg h1, if_neg h2, btreeGet?_cons, if_neg h2, ih]

theorem btreeGet?_insert_ne {α : Type} {k id : Nat} (v : α) (l : List (Nat × α))
    (hne : id ≠ k) : btreeGet? k (btreeInsert id v l) = btreeGet? k l := by
  have hne' : ¬ (k = id) := fun h => hne h.symm
  induction l with
  | nil =>
    show btreeGet? k [(id, v)] = btreeGet? k []
    rw [btreeGet?_cons, if_neg hne']
  | cons e rest ih =>
    rw [btreeInsert_cons]
    by_cases h1 : id < e.1
    · rw [if_pos h1, btreeGet?_cons, if_neg hne']
    · by_cases h2 : id = e.1
      · have h3 : ¬ k = e.1 := fun hk => hne' (hk.trans h2.symm)
        rw [if_neg h1, if_pos h2, btreeGet?_cons, if_neg hne', btreeGet?_cons, if_neg h3]
      · rw [if_neg h1, if_neg h2, btreeGet?_cons, btreeGet?_cons, ih]

theorem keyMem_of_get {α : Type} {k : Nat} {l : List (Nat × α)} {v : α}
    (h : btreeGet? k l = some v) : keyMem k l = true := by
  induction l with
  | nil => simp [btreeGet?] at h
  | cons e rest ih =>
    rw [btreeGet?_cons] at h
    rw [keyMem_cons]
    by_cases h1 : k = e.1
    · simp [h1]
    · rw [if_neg h1] at h
      rw [ih h]
      simp

theorem buildParticipantsMap_get_stable {k : Nat} {v : Identity} :
    ∀ (post acc pm : List (Nat × Identity)), btreeGet? k acc = some v →
      buildParticipantsMap acc post = .ok pm → btreeGet? k pm = some v := by
  intro post
  induction post with
  | nil =>
    intro acc pm hget h
    simp [buildParticipantsMap] at h
    rw [← h]
    exact hget
  | cons e rest ih =>
    intro acc pm hget h
    obtain ⟨id, identity⟩ := e
    by_cases h1 : keyMem id acc
    · simp [buildParticipantsMap, h1] at h
    · by_cases h2 : valMem identity acc
      · simp [buildParticipantsMap, h1, h2] at h
      · simp only [buildParticipantsMap, h1, h2, Bool.false_eq_true, if_false, if_neg] at h
        have hidk : id ≠ k := by
          intro hik
          rw [hik] at h1
          exact h1 (keyMem_of_get hget)
        refine ih (btreeInsert id identity acc) pm ?_ h
        rw [btreeGet?_insert_ne identity acc hidk]
        exact hget

theorem encParticipants_cons (e : Nat × Identity) (l : List (Nat × Identity)) :
    encParticipants (e :: l) = (encU16 e.1 ++ e.2) ++ encParticipants l := by
  simp [encParticipants]

theorem encParticipants_replaceVal_ne :
    ∀ (pm : List (Nat × Identity)) (k : Nat) (v v' : Identity), keySorted pm →
      btreeGet? k pm = some v → v ≠ v' →
      encParticipants (replaceVal k v' pm) ≠ encParticipants pm := by
  intro pm
  induction pm with
  | nil =>
    intro k v v' _ hget _
    simp [btreeGet?] at hget
  | cons e rest ih =>
    intro k v v' hs hget hvv
    obtain ⟨hhead, hrest⟩ := List.sorted_cons.mp hs
    rw [btreeGet?_cons] at hget
    by_cases h1 : k = e.1
    · rw [if_pos h1] at hget
      have hv : e.2 = v := by injection hget
      have hkrest : keyMem k rest = false := by
        refine keyMem_eq_false_iff.mpr ?_
        intro b hb
        have hlt : e.1 < b.1 := hhead b hb
        omega
      rw [replaceVal_cons, if_pos h1.symm, replaceVal_of_not_mem v' hkrest,
        encParticipants_cons, encParticipants_cons]
      intro hEq
      have h2 := List.append_cancel_right hEq
      rw [h1] at h2
      have h3 := List.append_cancel_left h2
      exact hvv (hv ▸ h3.symm)
    · rw [if_neg h1] at hget
      have hne : e.1 ≠ k := fun h => h1 h.symm
      rw [replaceVal_cons, if_neg hne, encParticipants_cons, encParticipants_cons]
      intro hEq
      exact ih k v v' hrest hget hvv (List.append_cancel_left hEq)

theorem sessionId_new_replace_ne (c : CryptoType) (m k : Nat)
    (pm : List (Nat × Identity)) (v v' : Identity) (hs : keySorted pm)
    (hget : btreeGet? k pm = some v) (hvv : v ≠ v') :
    SessionId.new c m (replaceVal k v' pm) ≠ SessionId.new c m pm := by
  simp only [SessionId.new, list_hash, List.flatten, List.append_nil, List.append_assoc]
  intro h
  have h1 := List.append_cancel_left h
  have h2 := List.append_cancel_left h1
  have h3 := List.append_cancel_right h2
  exact encParticipants_replaceVal_ne pm k v v' hs hget hvv h3

/-- Claim C7: for every ciphersuite and threshold, the SessionId computed
by `Session::new` is invariant under permutation of the participant
list, and replacing a single participant's identity changes it (the
latter at the level of the modelled ideal hash: the hash inputs differ).
-/
theorem c7_deterministic_session_id (c : CryptoType) (t : Nat) :
    (∀ (P P' : List (Nat × Identity)) (s s' : CoordSession), List.Perm P P' →
        Session.new c P t = .ok s → Session.new c P' t = .ok s' →
        s.sessionId = s'.sessionId) ∧
    (∀ (pre post : List (Nat × Identity)) (k : Nat) (v v' : Identity)
        (s s' : CoordSession), v ≠ v' →
        Session.new c (pre ++ (k, v) :: post) t = .ok s →
        Session.new c (pre ++ (k, v') :: post) t = .ok s' →
        s.sessionId ≠ s'.sessionId) := by
  constructor
  · intro P P' s s' hperm h h'
    obtain ⟨pm, hb, _, _, hrec⟩ := Session.new_ok_elim h
    obtain ⟨pm', hb', _, _, hrec'⟩ := Session.new_ok_elim h'
    obtain ⟨hsort, hp⟩ := buildParticipantsMap_ok_spec P [] pm (by simp [keySorted]) hb
    obtain ⟨hsort', hp'⟩ := buildParticipantsMap_ok_spec P' [] pm' (by simp [keySorted]) hb'
    simp at hp hp'
    have : List.Perm pm pm' := (hp.trans hperm).trans hp'.symm
    have hpm : pm = pm' := sorted_perm_eq this hsort hsort'
    rw [hrec, hrec', hpm]
  · intro pre post k v v' s s' hvv h h'
    obtain ⟨pm, hb, _, _, hrec⟩ := Session.new_ok_elim h
    obtain ⟨pm', hb', _, _, hrec'⟩ := Session.new_ok_elim h'
    rw [buildParticipantsMap_append] at hb hb'
    cases hpre : buildParticipantsMap [] pre with
    | error e =>
      rw [hpre] at hb
      simp [Except.bind] at hb
    | ok acc₀ =>
      rw [hpre] at hb hb'
      simp only [Except.bind] at hb hb'
      obtain ⟨hsort₀, _⟩ := buildParticipantsMap_ok_spec pre [] acc₀ (by simp [keySorted]) hpre
      by_cases hk : keyMem k acc₀
      · simp [buildParticipantsMap, hk] at hb
      · by_cases hv : valMem v acc₀
        · simp [buildParticipantsMap, hk, hv] at hb
        · by_cases hv' : valMem v' acc₀
          · simp [buildParticipantsMap, hk, hv'] at hb'
          · simp only [buildParticipantsMap, hk, hv, hv', Bool.false_eq_true, if_false,
              if_neg] at hb hb'
            have hrepl : btreeInsert k v' acc₀ = replaceVal k v' (btreeInsert k v acc₀) :=
              (btreeInsert_replace_same v v' (by simpa using hk)).symm
            rw [hrepl] at hb'
            have hpm' : pm' = replaceVal k v' pm :=
              buildParticipantsMap_replaceVal post (btreeInsert k v acc₀) pm pm'
                (keyMem_btreeInsert_self k v acc₀) hb hb'
            have hget : btreeGet? k pm = some v :=
              buildParticipantsMap_get_stable post (btreeInsert k v acc₀) pm
                (btreeGet?_insert_self k v acc₀) hb
            have hsortpm : keySorted pm :=
              (buildParticipantsMap_ok_spec post (btreeInsert k v acc₀) pm
                (btreeInsert_sorted k v hsort₀) hb).1
            rw [hrec, hrec', hpm']
            exact fun hEq =>
              sessionId_new_replace_ne c t k pm v v' hsortpm hget hvv hEq.symm

/-- Witness for C7 at concrete inputs: permuting two participants keeps
the SessionId, changing the second participant's identity changes it. -/
theorem c7_deterministic_session_id_witness :
    SessionId.new CryptoType.ed25519 2 [(1, [10]), (2, [20])] =
      SessionId.new CryptoType.ed25519 2 [(1, [10]), (2, [20])] ∧
    SessionId.new CryptoType.ed25519 2 [(1, [10]), (2, [20])] ≠
      SessionId.new CryptoType.ed25519 2 [(1, [10]), (2, [21])] := by
  constructor
  · exact (c7_deterministic_session_id CryptoType.ed25519 2).1
      [(1, [10]), (2, [20])] [(2, [20]), (1, [10])]
      { sessionId := SessionId.new CryptoType.ed25519 2 [(1, [10]), (2, [20])],
        cryptoType := CryptoType.ed25519, minSigners := 2,
        participants := [(1, [10]), (2, [20])] }
      { sessionId := SessionId.new CryptoType.ed25519 2 [(1, [10]), (2, [20])],
        cryptoType := CryptoType.ed25519, minSigners := 2,
        participants := [(1, [10]), (2, [20])] }
      (by decide) (by rfl) (by rfl)
  · exact (c7_deterministic_session_id CryptoType.ed25519 2).2
      [(1, [10])] [] 2 [20] [21]
      { sessionId := SessionId.new CryptoType.ed25519 2 [(1, [10]), (2, [20])],
        cryptoType := CryptoType.ed25519, minSigners := 2,
        participants := [(1, [10]), (2, [20])] }
      { sessionId := SessionId.new CryptoType.ed25519 2 [(1, [10]), (2, [21])],
        cryptoType := CryptoType.ed25519, minSigners := 2,
        participants := [(1, [10]), (2, [21])] }
      (by decide) (by rfl) (by rfl)

/-- A FROST protocol package tagged by its ciphersuite.  The Rust code
has one wrapper enum per package kind (`DKGRound1Package`,
`DKGRound1SecretPackage`, `DKGRound2SecretPackage`, `DKGRound2Packages`,
`DKGRound2Package`, `KeyPackage`, `PublicKeyPackage`), all of the shape
{Ed25519(_), Secp256k1(_), Secp256k1Tr(_)}; the backend payloads are
opaque (`Nat` handles), so one tagged type represents them all. -/
inductive TaggedPackage
  | ed25519 (p : Nat)
  | secp256k1 (p : Nat)
  | secp256k1Tr (p : Nat)
  deriving DecidableEq, Repr

def TaggedPackage.tag : TaggedPackage → CryptoType
  | .ed25519 _ => .ed25519
  | .secp256k1 _ => .secp256k1
  | .secp256k1Tr _ => .secp256k1Tr

def TaggedPackage.payload : TaggedPackage → Nat
  | .ed25519 p => p
  | .secp256k1 p => p
  | .secp256k1Tr p => p

/-- Wrap a backend payload with the tag of the given ciphersuite. -/
def TaggedPackage.withTag (c : CryptoType) (p : Nat) : TaggedPackage :=
  match c with
  | .ed25519 => .ed25519 p
  | .secp256k1 => .secp256k1 p
  | .secp256k1Tr => .secp256k1Tr p

abbrev DKGRound1Package := TaggedPackage
abbrev DKGRound1SecretPackage := TaggedPackage
abbrev DKGRound2SecretPackage := TaggedPackage
abbrev DKGRound2Packages := TaggedPackage
abbrev DKGRound2Package := TaggedPackage
abbrev KeyPackage := TaggedPackage
abbrev PublicKeyPackage := TaggedPackage

/-- Type `DKGPackage`: the crypto payload carried by a DKG response. -/
inductive DKGPackage
  | round1 (p : DKGRound1Package)
  | round2 (p : DKGRound2Packages)
  | publicKey (p : PublicKeyPackage)
  deriving DecidableEq, Repr

/-- Type `DKGSingleRequest` (coordinator→signer DKG round request). -/
inductive DKGSingleRequest
  | part1 (cryptoType : CryptoType) (sessionId : List Nat) (minSigners : Nat)
      (participants : List (Nat × Identity)) (identifier : Nat) (identity : Identity)
  | part2 (sessionId : List Nat) (cryptoType : CryptoType) (minSigners maxSigners : Nat)
      (identifier : Nat) (identity : Identity)
      (round1Packages : List (Nat × DKGRound1Package))
  | genPublicKey (sessionId : List Nat) (cryptoType : CryptoType) (minSigners maxSigners : Nat)
      (identifier : Nat) (identity : Identity)
      (round1Packages : List (Nat × DKGRound1Package))
      (round2Packages : List (Nat × DKGRound2Package))
  deriving DecidableEq, Repr

/-- Type `DKGSingleResponse`; note the source reuses the `Part2` constructor
for the GenPublicKey response. -/
inductive DKGSingleResponse
  | part1 (minSigners maxSigners identifier : Nat) (identity : Identity)
      (cryptoPackage : DKGPackage)
  | part2 (minSigners maxSigners identifier : Nat) (identity : Identity)
      (cryptoPackage : DKGPackage)
  deriving DecidableEq, Repr

def DKGSingleResponse.getIdentifier : DKGSingleResponse → Nat
  | .part1 _ _ identifier _ _ => identifier
  | .part2 _ _ identifier _ _ => identifier

/-- Type `DKGSignerState` (signer-side DKG state machine). -/
inductive DKGSignerState
  | part1 (cryptoType : CryptoType) (minSigners : Nat) (sessionId : List Nat)
      (participants : List (Nat × Identity)) (identifier : Nat) (identity : Identity)
      (round1SecretPackage : DKGRound1SecretPackage)
  | part2 (cryptoType : CryptoType) (minSigners : Nat) (sessionId : List Nat)
      (participants : List (Nat × Identity)) (identifier : Nat) (identity : Identity)
      (round1Packages : List (Nat × DKGRound1Package))
      (round2SecretPackage : DKGRound2SecretPackage)
  | completed (keyPackage : KeyPackage) (publicKeyPackage : PublicKeyPackage)
      (cryptoType : CryptoType) (minSigners : Nat) (sessionId : List Nat)
      (participants : List (Nat × Identity)) (identifier : Nat) (identity : Identity)
  deriving DecidableEq, Repr

def DKGSignerState.isPart1 : DKGSignerState → Bool
  | .part1 _ _ _ _ _ _ _ => true
  | _ => false

def DKGSignerState.isPart2 : DKGSignerState → Bool
  | .part2 _ _ _ _ _ _ _ _ => true
  | _ => false

/-- Record `SignerSession<VI>`; the `rng` handle is not representable and is
only threaded into the FROST backend, so it is omitted. -/
structure SignerSession where
  sessionId : List Nat
  cryptoType : CryptoType
  minSigners : Nat
  participants : List (Nat × Identity)
  dkgState : DKGSignerState
  signingState : List (Nat × Nat)
  identity : Identity
  identifier : Nat
  deriving DecidableEq, Repr

/-- Abstract FROST backend (the spec treats `dkg_part1/2/3` as a
black-box library); one function per round, dispatching on the
ciphersuite tag like the three per-suite arms in the source. -/
structure FrostBackend where
  dkg_part2 : CryptoType → Nat → List (Nat × Nat) → Except String (Nat × Nat)
  dkg_part3 : CryptoType → Nat → List (Nat × Nat) → List (Nat × Nat) → Except String (Nat × Nat)

/-- The round-1 package map construction in `update_from_request`:
skips the signer's own identifier, rejects a package whose ciphersuite
tag differs (`InvalidParticipants`), and panics on
`Identifier::try_from(0).unwrap()`. -/
def buildRound1PackagesMap (ct : CryptoType) (selfId : Nat) (acc : List (Nat × Nat)) :
    List (Nat × DKGRound1Package) → Except SessionError (List (Nat × Nat))
  | [] => .ok acc
  | (id, pkg) :: rest =>
    if id = selfId then buildRound1PackagesMap ct selfId acc rest
    else if pkg.tag = ct then
      if id = 0 then .error (.Panic "Identifier try_from(0) unwrap")
      else buildRound1PackagesMap ct selfId (btreeInsert id pkg.payload acc) rest
    else .error (.InvalidParticipants "invalid package type")

/-- The round-2 package map construction in the GenPublicKey arm: a
package with the wrong ciphersuite tag is silently skipped (the source
has no `else` branch there). -/
def buildRound2PackagesMap (ct : CryptoType) (selfId : Nat) (acc : List (Nat × Nat)) :
    List (Nat × DKGRound2Package) → Except SessionError (List (Nat × Nat))
  | [] => .ok acc
  | (id, pkg) :: rest =>
    if id = selfId then buildRound2PackagesMap ct selfId acc rest
    else if pkg.tag = ct then
      if id = 0 then .error (.Panic "Identifier try_from(0) unwrap")
      else buildRound2PackagesMap ct selfId (btreeInsert id pkg.payload acc) rest
    else buildRound2PackagesMap ct selfId acc rest

/-- Untagging of a stored secret package: the tag must match the
request's ciphersuite, else `InvalidParticipants`. -/
def untagSecret (ct : CryptoType) (s : TaggedPackage) : Except SessionError Nat :=
  if s.tag = ct then .ok s.payload
  else .error (.InvalidParticipants "invalid secret package type")

/-- The pure core of `SignerSession::update_from_request`: computes the
response and the successor DKG state, or an error; all error paths in
the source return before `self.dkg_state` is assigned. -/
def processRequest (fb : FrostBackend) (s : SignerSession) :
    DKGSingleRequest → Except SessionError (DKGSingleResponse × DKGSignerState)
  | .part1 _ _ _ _ _ _ =>
    .error (.InvalidRequest "invalid request for update from part1")
  | .part2 sessionId cryptoType minSigners maxSigners identifier identity round1Packages =>
    match s.dkgState with
    | .part1 _ _ _ _ _ _ round1SecretPackage =>
      match btreeGet? identifier s.participants with
      | none => .error (.InvalidParticipants "identifier not found in participants")
      | some _identity =>
        if _identity ≠ identity then
          .error (.InvalidParticipants "identity does not match identity")
        else if identifier = 0 then
          .error (.InvalidParticipants "identifier is invalid")
        else
          match buildRound1PackagesMap cryptoType s.identifier [] round1Packages with
          | .error e => .error e
          | .ok round1PackagesMap =>
            match untagSecret cryptoType round1SecretPackage with
            | .error e => .error e
            | .ok secret1 =>
              match fb.dkg_part2 cryptoType secret1 round1PackagesMap with
              | .error e => .error (.InternalError ("error generating package: " ++ e))
              | .ok (secret2, pkg2) =>
                .ok (.part2 minSigners maxSigners identifier identity
                      (.round2 (TaggedPackage.withTag cryptoType pkg2)),
                    .part2 cryptoType minSigners sessionId s.participants identifier identity
                      round1Packages (TaggedPackage.withTag cryptoType secret2))
    | _ => .error (.InvalidRequest "invalid request for update from part2")
  | .genPublicKey sessionId cryptoType minSigners maxSigners identifier identity
      round1Packages round2Packages =>
    match s.dkgState with
    | .part2 _ _ _ _ _ _ _ round2SecretPackage =>
      match btreeGet? identifier s.participants with
      | none => .error (.InvalidParticipants "identifier not found in participants")
      | some _identity =>
        if _identity ≠ identity then
          .error (.InvalidParticipants "identity does not match identity")
        else if identifier = 0 then
          .error (.InvalidParticipants "identifier is invalid")
        else
          match buildRound1PackagesMap cryptoType s.identifier [] round1Packages with
          | .error e => .error e
          | .ok round1PackagesMap =>
            match buildRound2PackagesMap cryptoType s.identifier [] round2Packages with
            | .error e => .error e
            | .ok round2PackagesMap =>
              match untagSecret cryptoType round2SecretPackage with
              | .error e => .error e
              | .ok secret2 =>
                match fb.dkg_part3 cryptoType secret2 round1PackagesMap round2PackagesMap with
                | .error e => .error (.InvalidParticipants ("error generating package: " ++ e))
                | .ok (keyPkg, pubPkg) =>
                  .ok (.part2 minSigners maxSigners identifier identity
                        (.publicKey (TaggedPackage.withTag cryptoType pubPkg)),
                      .completed (TaggedPackage.withTag cryptoType keyPkg)
                        (TaggedPackage.withTag cryptoType pubPkg)
                        cryptoType minSigners sessionId s.participants identifier identity)
    | _ => .error (.InvalidRequest "invalid request for update from part2")

/-- Embedding of `SignerSession::update_from_request`: the `&mut self` method as a
state-passing function; on success only `dkg_state` is written, on any
error the session is untouched. -/
def SignerSession.update_from_request (fb : FrostBackend) (s : SignerSession)
    (request : DKGSingleRequest) : Except SessionError DKGSingleResponse × SignerSession :=
  match processRequest fb s request with
  | .ok (resp, st) => (.ok resp, { s with dkgState := st })
  | .error e => (.error e, s)

def DKGSingleRequest.isPart1Req : DKGSingleRequest → Bool
  | .part1 _ _ _ _ _ _ => true
  | _ => false

def DKGSingleRequest.isPart2Req : DKGSingleRequest → Bool
  | .part2 _ _ _ _ _ _ _ => true
  | _ => false

def DKGSingleRequest.isGenPublicKeyReq : DKGSingleRequest → Bool
  | .genPublicKey _ _ _ _ _ _ _ _ => true
  | _ => false

theorem update_err_of_process {fb : FrostBackend} {s : SignerSession}
    {req : DKGSingleRequest} {e : SessionError}
    (hp : processRequest fb s req = .error e) :
    SignerSession.update_from_request fb s req = (.error e, s) := by
  simp [SignerSession.update_from_request, hp]

theorem update_ok_of_process {fb : FrostBackend} {s : SignerSession}
    {req : DKGSingleRequest} {resp : DKGSingleResponse} {st : DKGSignerState}
    (hp : processRequest fb s req = .ok (resp, st)) :
    SignerSession.update_from_request fb s req = (.ok resp, { s with dkgState := st }) := by
  simp [SignerSession.update_from_request, hp]

/-- Claim C5: signer-side `update_from_request` accepts a Part2 request
only in stored state Part1 and a GenPublicKey request only in stored
state Part2; a Part1 request to it, and any state-mismatched request,
fails with `InvalidRequest`; and every failing request leaves the
session (in particular its `dkg_state`) unchanged. -/
theorem c5_signer_session_transitions (fb : FrostBackend) (s : SignerSession)
    (req : DKGSingleRequest) :
    ((SignerSession.update_from_request fb s req).1.isOk = true →
      req.isPart2Req = true → s.dkgState.isPart1 = true) ∧
    ((SignerSession.update_from_request fb s req).1.isOk = true →
      req.isGenPublicKeyReq = true → s.dkgState.isPart2 = true) ∧
    (req.isPart1Req = true →
      (SignerSession.update_from_request fb s req).1 =
        .error (.InvalidRequest "invalid request for update from part1")) ∧
    (req.isPart2Req = true → s.dkgState.isPart1 = false →
      (SignerSession.update_from_request fb s req).1 =
        .error (.InvalidRequest "invalid request for update from part2")) ∧
    (req.isGenPublicKeyReq = true → s.dkgState.isPart2 = false →
      (SignerSession.update_from_request fb s req).1 =
        .error (.InvalidRequest "invalid request for update from part2")) ∧
    (∀ e, (SignerSession.update_from_request fb s req).1 = .error e →
      (SignerSession.update_from_request fb s req).2 = s) := by
  refine ⟨?_, ?_, ?_, ?_, ?_, ?_⟩
  · intro hok hreq
    cases req with
    | part1 a b c d e f => simp [DKGSingleRequest.isPart2Req] at hreq
    | genPublicKey a b c d e f g h => simp [DKGSingleRequest.isPart2Req] at hreq
    | part2 a b c d e f g =>
      cases hst : s.dkgState with
      | part1 _ _ _ _ _ _ _ => simp [DKGSignerState.isPart1]
      | part2 _ _ _ _ _ _ _ _ =>
        have hp : processRequest fb s (.part2 a b c d e f g) =
            .error (.InvalidRequest "invalid request for update from part2") := by
          simp [processRequest, hst]
        rw [update_err_of_process hp] at hok
        simp [Except.isOk, Except.toBool] at hok
      | completed _ _ _ _ _ _ _ _ =>
        have hp : processRequest fb s (.part2 a b c d e f g) =
            .error (.InvalidRequest "invalid request for update from part2") := by
          simp [processRequest, hst]
        rw [update_err_of_process hp] at hok
        simp [Except.isOk, Except.toBool] at hok
  · intro hok hreq
    cases req with
    | part1 a b c d e f => simp [DKGSingleRequest.isGenPublicKeyReq] at hreq
    | part2 a b c d e f g => simp [DKGSingleRequest.isGenPublicKeyReq] at hreq
    | genPublicKey a b c d e f g h =>
      cases hst : s.dkgState with
      | part2 _ _ _ _ _ _ _ _ => simp [DKGSignerState.isPart2]
      | part1 _ _ _ _ _ _ _ =>
        have hp : processRequest fb s (.genPublicKey a b c d e f g h) =
            .error (.InvalidRequest "invalid request for update from part2") := by
          simp [processRequest, hst]
        rw [update_err_of_process hp] at hok
        simp [Except.isOk, Except.toBool] at hok
      | completed _ _ _ _ _ _ _ _ =>
        have hp : processRequest fb s (.genPublicKey a b c d e f g h) =
            .error (.InvalidRequest "invalid request for update from part2") := by
          simp [processRequest, hst]
        rw [update_err_of_process hp] at hok
        simp [Except.isOk, Except.toBool] at hok
  · intro hreq
    cases req with
    | part2 a b c d e f g => simp [DKGSingleRequest.isPart1Req] at hreq
    | genPublicKey a b c d e f g h => simp [DKGSingleRequest.isPart1Req] at hreq
    | part1 a b c d e f =>
      have hp : processRequest fb s (.part1 a b c d e f) =
          .error (.InvalidRequest "invalid request for update from part1") := by
        simp [processRequest]
      rw [update_err_of_process hp]
  · intro hreq hst1
    cases req with
    | part1 a b c d e f => simp [DKGSingleRequest.isPart2Req] at hreq
    | genPublicKey a b c d e f g h => simp [DKGSingleRequest.isPart2Req] at hreq
    | part2 a b c d e f g =>
      cases hst : s.dkgState with
      | part1 _ _ _ _ _ _ _ => rw [hst] at hst1; simp [DKGSignerState.isPart1] at hst1
      | part2 _ _ _ _ _ _ _ _ =>
        have hp : processRequest fb s (.part2 a b c d e f g) =
            .error (.InvalidRequest "invalid request for update from part2") := by
          simp [processRequest, hst]
        rw [update_err_of_process hp]
      | completed _ _ _ _ _ _ _ _ =>
        have hp : processRequest fb s (.part2 a b c d e f g) =
            .error (.InvalidRequest "invalid request for update from part2") := by
          simp [processRequest, hst]
        rw [update_err_of_process hp]
  · intro hreq hst2
    cases req with
    | part1 a b c d e f => simp [DKGSingleRequest.isGenPublicKeyReq] at hreq
    | part2 a b c d e f g => simp [DKGSingleRequest.isGenPublicKeyReq] at hreq
    | genPublicKey a b c d e f g h =>
      cases hst : s.dkgState with
      | part2 _ _ _ _ _ _ _ _ => rw [hst] at hst2; simp [DKGSignerState.isPart2] at hst2
      | part1 _ _ _ _ _ _ _ =>
        have hp : processRequest fb s (.genPublicKey a b c d e f g h) =
            .error (.InvalidRequest "invalid request for update from part2") := by
          simp [processRequest, hst]
        rw [update_err_of_process hp]
      | completed _ _ _ _ _ _ _ _ =>
        have hp : processRequest fb s (.genPublicKey a b c d e f g h) =
            .error (.InvalidRequest "invalid request for update from part2") := by
          simp [processRequest, hst]
        rw [update_err_of_process hp]
  · intro e he
    cases hp : processRequest fb s req with
    | ok v =>
      obtain ⟨resp, st⟩ := v
      rw [update_ok_of_process hp] at he
      simp at he
    | error e' =>
      rw [update_err_of_process hp]

/-- A trivial FROST backend used to evaluate the embedding at concrete
inputs. -/
def sampleBackend : FrostBackend :=
  { dkg_part2 := fun _ _ _ => .ok (0, 0), dkg_part3 := fun _ _ _ _ => .ok (0, 0) }

def sampleSignerSession : SignerSession :=
  { sessionId := [], cryptoType := .ed25519, minSigners := 1,
    participants := [(1, [10])],
    dkgState := .part1 .ed25519 1 [] [(1, [10])] 1 [10] (.ed25519 0),
    signingState := [], identity := [10], identifier := 1 }

def samplePart1Request : DKGSingleRequest :=
  .part1 .ed25519 [] 1 [(1, [10])] 1 [10]

/-- Witness for C5: a Part1 request to an existing session fails with
`InvalidRequest` and leaves the session unchanged. -/
theorem c5_signer_session_transitions_witness :
    (SignerSession.update_from_request sampleBackend sampleSignerSession samplePart1Request).1 =
      .error (.InvalidRequest "invalid request for update from part1") ∧
    (SignerSession.update_from_request sampleBackend sampleSignerSession samplePart1Request).2 =
      sampleSignerSession := by
  have h := c5_signer_session_transitions sampleBackend sampleSignerSession samplePart1Request
  exact ⟨h.2.2.1 (by rfl), h.2.2.2.2.2 _ (h.2.2.1 (by rfl))⟩

theorem keyMem_btreeInsert_true_elim {α : Type} {k x : Nat} {v : α} {l : List (Nat × α)}
    (h : keyMem x (btreeInsert k v l) = true) : x = k ∨ keyMem x l = true := by
  simp only [keyMem, List.any_eq_true, decide_eq_true_eq] at h ⊢
  obtain ⟨e, he, hex⟩ := h
  rcases btreeInsert_mem_of_mem he with h' | h'
  · left
    rw [← hex, h']
  · right
    exact ⟨e, h', hex⟩

/-- The response-collection loop in `Session::start`:
`for i in 0..participants.len()` take the next completed future; a
delivered response (`some r`) is merged into the `BTreeMap` keyed by
`r.get_identifier()`; a channel error or exhausted stream (`none`)
breaks out of the loop. -/
def collectResponses (acc : List (Nat × DKGSingleResponse)) :
    Nat → List (Option DKGSingleResponse) → List (Nat × DKGSingleResponse)
  | 0, _ => acc
  | _ + 1, [] => acc
  | _ + 1, none :: _ => acc
  | n + 1, some r :: rest => collectResponses (btreeInsert r.getIdentifier r acc) n rest

/-- One iteration of the coordinator-side DKG session loop in
`Session::start` (`crypto/session.rs:719-799`): collect up to
`|participants|` responses; if the merged map has exactly that size,
apply `handle_response` (the abstract DKG state transition, `dkg.rs`)
and advance on success; otherwise, or on a handling error, keep the
state and sleep `state_channel_retry_interval` seconds before retrying.
The second component is `some interval` when the round will be retried
after that sleep, `none` when the state advanced. -/
def dkgRoundStep {σ : Type} (handle : σ → List (Nat × DKGSingleResponse) → Except SessionError σ)
    (retryInterval : Nat) (st : σ) (nParticipants : Nat)
    (arrivals : List (Option DKGSingleResponse)) : σ × Option Nat :=
  let responses := collectResponses [] nParticipants arrivals
  if responses.length = nParticipants then
    match handle st responses with
    | .ok next => (next, none)
    | .error _ => (st, some retryInterval)
  else (st, some retryInterval)

theorem foldl_btreeInsert_spec {α : Type} (key : α → Nat) :
    ∀ (rs : List α) (acc : List (Nat × α)), keySorted acc →
      (∀ r ∈ rs, keyMem (key r) acc = false) → (rs.map key).Nodup →
      keySorted (List.foldl (fun a r => btreeInsert (key r) r a) acc rs) ∧
      List.Perm (List.foldl (fun a r => btreeInsert (key r) r a) acc rs)
        (acc ++ rs.map (fun r => (key r, r))) := by
  intro rs
  induction rs with
  | nil =>
    intro acc hs _ _
    simpa using hs
  | cons r rest ih =>
    intro acc hs hfresh hnodup
    have hr : keyMem (key r) acc = false := hfresh r (by simp)
    have hnr : (key r) ∉ rest.map key := by
      simp only [List.map_cons, List.nodup_cons] at hnodup
      exact hnodup.1
    have hfresh' : ∀ r' ∈ rest, keyMem (key r') (btreeInsert (key r) r acc) = false := by
      intro r' hr'
      by_contra hcon
      have htrue : keyMem (key r') (btreeInsert (key r) r acc) = true := by
        cases hx : keyMem (key r') (btreeInsert (key r) r acc)
        · exact absurd hx hcon
        · rfl
      rcases keyMem_btreeInsert_true_elim htrue with heq | hmem
      · exact hnr (heq ▸ List.mem_map_of_mem key hr')
      · have := hfresh r' (by simp [hr'])
        rw [this] at hmem
        exact Bool.false_ne_true hmem
    have hnodup' : (rest.map key).Nodup := by
      simp only [List.map_cons, List.nodup_cons] at hnodup
      exact hnodup.2
    obtain ⟨hsort, hperm⟩ := ih (btreeInsert (key r) r acc)
      (btreeInsert_sorted (key r) r hs) hfresh' hnodup'
    refine ⟨by simpa using hsort, ?_⟩
    simp only [List.foldl_cons] at hperm ⊢
    have p1 : List.Perm (btreeInsert (key r) r acc ++ rest.map (fun r => (key r, r)))
        (((key r, r) :: acc) ++ rest.map (fun r => (key r, r))) :=
      List.Perm.append_right _ (btreeInsert_perm_fresh r hr)
    have p2 : List.Perm (acc ++ (key r, r) :: rest.map (fun r => (key r, r)))
        ((key r, r) :: (acc ++ rest.map (fun r => (key r, r)))) := List.perm_middle
    simp only [List.map_cons]
    exact (hperm.trans p1).trans p2.symm

theorem collectResponses_all_some :
    ∀ (rs : List DKGSingleResponse) (acc : List (Nat × DKGSingleResponse)) (n : Nat),
      rs.length ≤ n →
      collectResponses acc n (rs.map some) =
        List.foldl (fun a r => btreeInsert r.getIdentifier r a) acc rs := by
  intro rs
  induction rs with
  | nil =>
    intro acc n _
    cases n <;> rfl
  | cons r rest ih =>
    intro acc n hlen
    cases n with
    | zero => simp at hlen
    | succ m =>
      simp only [List.map_cons, collectResponses, List.foldl_cons]
      exact ih _ m (by simpa using hlen)

/-- Claim C6: the coordinator DKG session round advances
(`handle_response` applied, no sleep) exactly when the merged response
map has size `|participants|` and handling succeeds; a missing response
or a handling error leaves the state unchanged and the round is retried
after `state_channel_retry_interval` seconds; arrivals are merged into
the map keyed by sender identifier, so any arrival order of a full set
of distinct-identifier responses yields the same map. -/
theorem c6_round_retry_semantics {σ : Type}
    (handle : σ → List (Nat × DKGSingleResponse) → Except SessionError σ)
    (retryInterval : Nat) (st : σ) (n : Nat) (arrivals : List (Option DKGSingleResponse)) :
    ((collectResponses [] n arrivals).length ≠ n →
      dkgRoundStep handle retryInterval st n arrivals = (st, some retryInterval)) ∧
    (∀ e, (collectResponses [] n arrivals).length = n →
      handle st (collectResponses [] n arrivals) = .error e →
      dkgRoundStep handle retryInterval st n arrivals = (st, some retryInterval)) ∧
    (∀ next, (collectResponses [] n arrivals).length = n →
      handle st (collectResponses [] n arrivals) = .ok next →
      dkgRoundStep handle retryInterval st n arrivals = (next, none)) ∧
    (∀ (rs rs' : List DKGSingleResponse), List.Perm rs rs' →
      (rs.map DKGSingleResponse.getIdentifier).Nodup → rs.length ≤ n →
      collectResponses [] n (rs.map some) = collectResponses [] n (rs'.map some)) := by
  refine ⟨?_, ?_, ?_, ?_⟩
  · intro hne
    simp [dkgRoundStep, hne]
  · intro e hlen herr
    simp [dkgRoundStep, hlen, herr]
  · intro next hlen hok
    simp [dkgRoundStep, hlen, hok]
  · intro rs rs' hperm hnodup hlen
    have hlen' : rs'.length ≤ n := hperm.length_eq ▸ hlen
    have hnodup' : (rs'.map DKGSingleResponse.getIdentifier).Nodup :=
      ((hperm.map DKGSingleResponse.getIdentifier).nodup_iff).mp hnodup
    rw [collectResponses_all_some rs [] n hlen, collectResponses_all_some rs' [] n hlen']
    obtain ⟨hsort, hp⟩ := foldl_btreeInsert_spec DKGSingleResponse.getIdentifier rs []
      (by simp [keySorted]) (by simp [keyMem]) hnodup
    obtain ⟨hsort', hp'⟩ := foldl_btreeInsert_spec DKGSingleResponse.getIdentifier rs' []
      (by simp [keySorted]) (by simp [keyMem]) hnodup'
    refine sorted_perm_eq ?_ hsort hsort'
    refine hp.trans (List.Perm.trans ?_ hp'.symm)
    simpa using hperm.map (fun r => (r.getIdentifier, r))

def sampleRespA : DKGSingleResponse := .part1 1 2 1 [10] (.round1 (.ed25519 0))

def sampleRespB : DKGSingleResponse := .part1 1 2 2 [20] (.round1 (.ed25519 0))

/-- A handler that counts applications, to observe advancement. -/
def sampleHandle (st : Nat) (_ : List (Nat × DKGSingleResponse)) : Except SessionError Nat :=
  .ok (st + 1)

/-- Witness for C6: one missing response retries with the interval and
keeps the state; a full set advances; two arrival orders give one map.
-/
theorem c6_round_retry_semantics_witness :
    dkgRoundStep sampleHandle 5 0 2 [some sampleRespA] = (0, some 5) ∧
    dkgRoundStep sampleHandle 5 0 2 [some sampleRespA, some sampleRespB] = (1, none) ∧
    collectResponses [] 2 ([sampleRespA, sampleRespB].map some) =
      collectResponses [] 2 ([sampleRespB, sampleRespA].map some) := by
  have h := c6_round_retry_semantics sampleHandle 5 0 2 [some sampleRespA]
  have h2 := c6_round_retry_semantics sampleHandle 5 0 2 [some sampleRespA, some sampleRespB]
  refine ⟨h.1 (by decide), h2.2.2.1 1 (by decide) (by rfl), ?_⟩
  exact h2.2.2.2 [sampleRespA, sampleRespB] [sampleRespB, sampleRespA]
    (List.Perm.swap sampleRespB sampleRespA []) (by decide) (by decide)

/-- Unordered association-map insertion (`HashMap::insert`): replaces
the value on an existing key, appends otherwise. -/
def assocInsert {κ ν : Type} [DecidableEq κ] (k : κ) (v : ν) : List (κ × ν) → List (κ × ν)
  | [] => [(k, v)]
  | (k', v') :: rest => if k = k' then (k, v) :: rest else (k', v') :: assocInsert k v rest

/-- Map lookup (`HashMap::get`). -/
def assocGet? {κ ν : Type} [DecidableEq κ] (k : κ) : List (κ × ν) → Option ν
  | [] => none
  | (k', v') :: rest => if k = k' then some v' else assocGet? k rest

/-- Entry removal (`HashMap::remove`). -/
def assocRemove {κ ν : Type} [DecidableEq κ] (k : κ) : List (κ × ν) → List (κ × ν)
  | [] => []
  | (k', v') :: rest => if k = k' then rest else (k', v') :: assocRemove k rest

/-- Record `Validator<VI>` as stored in `valid_validators`; the stored public
key (`_validator_public_key`, never read back) is the identity's
fingerprint here. -/
structure Validator where
  p2p_peer_id : Nat
  validator_peer_id : Identity
  nonce : Nat
  address : Option Nat
  deriving DecidableEq, Repr

/-- The event-loop-owned mutable state of `Coordinator<VI>` that the
embedded handlers read and write.  Request mappings store the expected
peer for an outbound request id (the paired oneshot reply channel is
abstracted away: delivering on it is the `honored` outcome below).
`auto_dkg` is `some _` exactly when the coordinator runs with auto-DKG
state. -/
structure CoordState where
  signer_whitelist : Option (List Identity)
  valid_validators : List (Identity × Validator)
  p2ppeerid_2_endpoint : List (Nat × Nat)
  dkg_request_mapping : List (Nat × Nat)
  signing_request_mapping : List (Nat × Nat)
  dkg_request_mapping_ex : List (Nat × Nat)
  signing_request_mapping_ex : List (Nat × Nat)
  auto_dkg : Option Nat
  deriving DecidableEq, Repr

/-- The four kinds of coordinator→signer transport responses. -/
inductive RespKind
  | dkg
  | signing
  | dkgEx
  | signingEx
  deriving DecidableEq, Repr

/-- What the response arm of `handle_swarm_event` does with an incoming
response: `honored` = delivered to the waiting session via the mapped
oneshot (and the mapping entry removed); `droppedMismatch` = sender is
not the recorded peer, return without error; `droppedMissing` = request
id absent, logged and ignored; `panicMissing` = request id absent but
the code calls `.get(&request_id).unwrap()`, aborting the process. -/
inductive RespOutcome
  | honored
  | droppedMismatch
  | droppedMissing
  | panicMissing
  deriving DecidableEq, Repr

/-- The `Coor2sig` response arm of `Coordinator::handle_swarm_event`
(coordinator.rs:582-704).  The plain DKG and signing arms call
`self.*_request_mapping.get(&request_id).unwrap()`; the extended arms
first test `contains_key`. -/
def handleCoorToSigResponse (st : CoordState) (kind : RespKind) (peer request_id : Nat) :
    RespOutcome × CoordState :=
  match kind with
  | .dkg =>
    match assocGet? request_id st.dkg_request_mapping with
    | none => (.panicMissing, st)
    | some validator_peer_id =>
      if validator_peer_id ≠ peer then (.droppedMismatch, st)
      else (.honored,
        { st with dkg_request_mapping := assocRemove request_id st.dkg_request_mapping })
  | .signing =>
    match assocGet? request_id st.signing_request_mapping with
    | none => (.panicMissing, st)
    | some validator_peer_id =>
      if validator_peer_id ≠ peer then (.droppedMismatch, st)
      else (.honored,
        { st with signing_request_mapping := assocRemove request_id st.signing_request_mapping })
  | .dkgEx =>
    match assocGet? request_id st.dkg_request_mapping_ex with
    | none => (.droppedMissing, st)
    | some validator_peer_id =>
      if validator_peer_id ≠ peer then (.droppedMismatch, st)
      else (.honored,
        { st with dkg_request_mapping_ex := assocRemove request_id st.dkg_request_mapping_ex })
  | .signingEx =>
    match assocGet? request_id st.signing_request_mapping_ex with
    | none => (.droppedMissing, st)
    | some validator_peer_id =>
      if validator_peer_id ≠ peer then (.droppedMismatch, st)
      else (.honored,
        { st with signing_request_mapping_ex :=
            assocRemove request_id st.signing_request_mapping_ex })

/-- Type `TargetOrBroadcast` of an extended relay envelope. -/
inductive TargetOrBroadcast
  | target (to_id : Nat)
  | broadcast
  deriving DecidableEq, Repr

/-- The `Intermediate` payload; `from` is a Lean keyword, hence
`from_id` for the sender's identifier field. -/
structure MessageEx where
  from_id : Nat
  target : TargetOrBroadcast
  deriving DecidableEq, Repr

/-- Field `base_info` of an extended request: the session's participant map
(identifier → identity). -/
structure BaseInfo where
  participants : List (Nat × Identity)
  deriving DecidableEq, Repr

/-- Type `DKGStageEx` (`Init` and `Final` renamed to avoid keyword-adjacent
names); `Final` carries the result payload, abstract here. -/
inductive DKGStageEx
  | initStage
  | intermediate (message_ex : MessageEx)
  | finalStage (payload : Nat)
  deriving DecidableEq, Repr

structure DKGRequestEx where
  stage : DKGStageEx
  base_info : BaseInfo
  deriving DecidableEq, Repr

/-- Type `SigningStageEx`; `Init` carries a package and signing-info payload
in the source, abstracted to two naturals. -/
inductive SigningStageEx
  | initStage (a b : Nat)
  | intermediate (message_ex : MessageEx)
  | finalStage (payload : Nat)
  deriving DecidableEq, Repr

structure SigningRequestEx where
  stage : SigningStageEx
  base_info : BaseInfo
  deriving DecidableEq, Repr

/-- Reply on the signer→coordinator channel
(`DKGResponseWrapEx`/`SigningResponseWrapEx`). -/
inductive RelayReply
  | success
  | failure (msg : String)
  deriving DecidableEq, Repr

/-- Observable effect of handling one extended relay envelope: the reply
to the submitting signer, the p2p peers the envelope was forwarded to
(in participant-map order), and whether it was pushed into the
in-process final channel. -/
structure RelayOutcome where
  reply : RelayReply
  forwards : List Nat
  sent_to_final_channel : Bool
  deriving DecidableEq, Repr

/-- Embedding of `Coordinator::send_request_to_signer`: resolves the identity in
`valid_validators` and sends to its p2p peer; an unregistered identity
is an error (nothing sent). -/
def send_request_to_signer (st : CoordState) (identity : Identity) : Except String Nat :=
  match assocGet? identity st.valid_validators with
  | some v => .ok v.p2p_peer_id
  | none => .error "Invalid participant"

/-- The broadcast loop of the Intermediate/Broadcast arm: forward to
every participant except the sender's identifier; a send failure is
only logged. -/
def broadcastForwards (st : CoordState) (sender : Nat)
    (participants : List (Nat × Identity)) : List Nat :=
  participants.filterMap (fun e =>
    if e.1 ≠ sender then (send_request_to_signer st e.2).toOption else none)

/-- The `SigToCoorRequest::DKGRequestEx` arm of `handle_swarm_event`
(coordinator.rs:977-1114).  `connPeer` is the authenticated p2p peer of
the submitting connection; the source never reads it in this arm.  The
`parsed` argument is the result of `request.dkg_request_ex()`
(ciphersuite unwrapping, outside src/); its error is replied as
`Failure`. -/
def handleDkgRequestEx (st : CoordState) (connPeer : Nat)
    (parsed : Except String DKGRequestEx) : RelayOutcome :=
  match parsed with
  | .error e => { reply := .failure e, forwards := [], sent_to_final_channel := false }
  | .ok request =>
    match request.stage with
    | .initStage =>
      { reply := .failure "Cannot send init message", forwards := [],
        sent_to_final_channel := false }
    | .intermediate message_ex =>
      match message_ex.target with
      | .target to_id =>
        match btreeGet? to_id request.base_info.participants with
        | some id =>
          match send_request_to_signer st id with
          | .ok p => { reply := .success, forwards := [p], sent_to_final_channel := false }
          | .error e => { reply := .failure e, forwards := [], sent_to_final_channel := false }
        | none =>
          { reply := .failure "Invalid participant", forwards := [],
            sent_to_final_channel := false }
      | .broadcast =>
        { reply := .success,
          forwards := broadcastForwards st message_ex.from_id request.base_info.participants,
          sent_to_final_channel := false }
    | .finalStage _ =>
      { reply := .success, forwards := [], sent_to_final_channel := true }

/-- The `SigToCoorRequest::SigningRequestEx` arm (coordinator.rs:
1115-1236), structurally identical to the DKG one. -/
def handleSigningRequestEx (st : CoordState) (connPeer : Nat)
    (parsed : Except String SigningRequestEx) : RelayOutcome :=
  match parsed with
  | .error e => { reply := .failure e, forwards := [], sent_to_final_channel := false }
  | .ok request =>
    match request.stage with
    | .initStage _ _ =>
      { reply := .failure "Cannot send init message", forwards := [],
        sent_to_final_channel := false }
    | .intermediate message_ex =>
      match message_ex.target with
      | .target to_id =>
        match btreeGet? to_id request.base_info.participants with
        | some id =>
          match send_request_to_signer st id with
          | .ok p => { reply := .success, forwards := [p], sent_to_final_channel := false }
          | .error e => { reply := .failure e, forwards := [], sent_to_final_channel := false }
        | none =>
          { reply := .failure "Invalid participant", forwards := [],
            sent_to_final_channel := false }
      | .broadcast =>
        { reply := .success,
          forwards := broadcastForwards st message_ex.from_id request.base_info.participants,
          sent_to_final_channel := false }
    | .finalStage _ =>
      { reply := .success, forwards := [], sent_to_final_channel := true }

/-- Type `ValidatorIdentityRequest`: the registration message.  `public_key`
is the validator's key bytes; its `to_identity()` fingerprint is the
bytes themselves in this model.  (A `from_bytes` parse failure replies
`Invalid public key` and touches nothing; it is orthogonal to the
claims and not modelled.) -/
structure ValidatorIdentityRequest where
  signature : Nat
  public_key : Identity
  nonce : Nat
  deriving DecidableEq, Repr

/-- The whitelist gate at the top of `handle_vi_request`:
`!whitelist.contains(&validator_peer) && verify_whitelist`. -/
def whitelistRejects (st : CoordState) (identity : Identity) (verify_whitelist : Bool) : Bool :=
  match st.signer_whitelist with
  | some whitelist => decide (identity ∉ whitelist) && verify_whitelist
  | none => false

/-- Embedding of `Coordinator::handle_vi_request` (coordinator.rs:1260-1421) as far
as the validator table is concerned.  `verifySig` abstracts
`public_key.verify(&hash, &signature)` where the hash is
`list_hash(["register", identity, peer, coordinator peer])`; it depends
on the request and the connection peer.  The auto-DKG registration side
effect touches only the auto-DKG state, never `valid_validators`, and is
out of scope here. -/
def handle_vi_request (verifySig : ValidatorIdentityRequest → Nat → Bool)
    (st : CoordState) (peer : Nat) (request : ValidatorIdentityRequest)
    (verify_whitelist : Bool) : Except String Unit × CoordState :=
  let validator_peer := request.public_key
  if whitelistRejects st validator_peer verify_whitelist then
    (.error "Validator peerid is not in whitelist", st)
  else if verifySig request peer then
    if !verify_whitelist then (.ok (), st)
    else
      let address := assocGet? peer st.p2ppeerid_2_endpoint
      let new_validator : Validator :=
        { p2p_peer_id := peer, validator_peer_id := validator_peer,
          nonce := request.nonce, address := address }
      let old_validator := assocGet? validator_peer st.valid_validators
      let should_insert :=
        match old_validator with
        | some v => decide (v.nonce < request.nonce)
        | none => true
      if should_insert then
        (.ok (),
          { st with valid_validators :=
              assocInsert validator_peer new_validator st.valid_validators })
      else (.ok (), st)
  else (.error "Invalid signature", st)

/-- The reply the `Sig2coor` registration arm sends back: `Success` on
`Ok`, `Failure(e)` on `Err(e)`. -/
def viReplyOf : Except String Unit → RelayReply
  | .ok _ => .success
  | .error e => .failure e

/-- Outcome of `NodeToCoorRequest::DKGRequest` / IPC `start_dkg`: either a
failure reply is sent (no instruction reaches the session manager), or
a `NewKey` instruction with these fields is sent. -/
inductive NodeDkgOutcome
  | failureReply (msg : String)
  | startedNewKey (crypto_type : CryptoType) (participants : List (Nat × Identity))
      (min_signers : Nat)
  deriving DecidableEq, Repr

/-- The `NodeToCoorRequest::DKGRequest` arm of `handle_swarm_event`
(coordinator.rs:735-802): rejected when auto-DKG is active, then the
255-participant bound, else a `NewKey` instruction with participants
enumerated from 1. -/
def handleNodeDkgRequest (st : CoordState) (crypto_type : CryptoType)
    (participants : List Identity) (min_signers : Nat) : NodeDkgOutcome :=
  if st.auto_dkg.isSome then .failureReply "AutoDKG is enabled"
  else if participants.length > 255 then .failureReply "Too many participants"
  else .startedNewKey crypto_type
    (participants.enum.map (fun e => (e.1 + 1, e.2))) min_signers

/-- The IPC `Command::StartDkg` arm of `handle_command`
(coordinator.rs:1600-1640): enumerates the registered validators and
unconditionally sends a `NewKey` instruction — there is no auto-DKG
check on this path. -/
def handleStartDkgCommand (st : CoordState) (min_signers : Nat)
    (crypto_type : CryptoType) : NodeDkgOutcome :=
  .startedNewKey crypto_type
    (((st.valid_validators.map (fun e => e.2.validator_peer_id)).enum).map
      (fun e => (e.1 + 1, e.2)))
    min_signers

theorem assocGet?_insert_self {κ ν : Type} [DecidableEq κ] (k : κ) (v : ν)
    (l : List (κ × ν)) : assocGet? k (assocInsert k v l) = some v := by
  induction l with
  | nil => simp [assocInsert, assocGet?]
  | cons e rest ih =>
    obtain ⟨k', v'⟩ := e
    by_cases h : k = k'
    · simp [assocInsert, assocGet?, h]
    · simp [assocInsert, assocGet?, h, ih]

/-- A successful fresh registration on the whitelist-verifying endpoint
inserts the new validator. -/
theorem handle_vi_insert_none (verifySig : ValidatorIdentityRequest → Nat → Bool)
    (st : CoordState) (p : Nat) (r : ValidatorIdentityRequest)
    (hwl : whitelistRejects st r.public_key true = false)
    (hsig : verifySig r p = true)
    (hold : assocGet? r.public_key st.valid_validators = none) :
    handle_vi_request verifySig st p r true =
      (.ok (),
        { st with
            valid_validators :=
              assocInsert r.public_key
                (Validator.mk p r.public_key r.nonce (assocGet? p st.p2ppeerid_2_endpoint))
                st.valid_validators }) := by
  simp [handle_vi_request, hwl, hsig, hold]

/-- A successful registration superseding a lower-nonce entry. -/
theorem handle_vi_insert_some (verifySig : ValidatorIdentityRequest → Nat → Bool)
    (st : CoordState) (p : Nat) (r : ValidatorIdentityRequest) (v : Validator)
    (hwl : whitelistRejects st r.public_key true = false)
    (hsig : verifySig r p = true)
    (hold : assocGet? r.public_key st.valid_validators = some v)
    (hlt : v.nonce < r.nonce) :
    handle_vi_request verifySig st p r true =
      (.ok (),
        { st with
            valid_validators :=
              assocInsert r.public_key
                (Validator.mk p r.public_key r.nonce (assocGet? p st.p2ppeerid_2_endpoint))
                st.valid_validators }) := by
  simp [handle_vi_request, hwl, hsig, hold, hlt]

/-- A registration whose nonce does not exceed the stored one leaves the
state unchanged. -/
theorem handle_vi_stale (verifySig : ValidatorIdentityRequest → Nat → Bool)
    (st : CoordState) (p : Nat) (r : ValidatorIdentityRequest) (v : Validator)
    (hold : assocGet? r.public_key st.valid_validators = some v)
    (hge : ¬ v.nonce < r.nonce) :
    (handle_vi_request verifySig st p r true).2 = st := by
  by_cases hwl : whitelistRejects st r.public_key true
  · simp [handle_vi_request, hwl]
  · by_cases hsig : verifySig r p
    · simp [handle_vi_request, hwl, hsig, hold, hge]
    · simp [handle_vi_request, hwl, hsig]

/-- Claim C8: for two valid registrations of the same identity with
`r1.nonce < r2.nonce`, processing both (in either order, starting from
a table without that identity) stores r2's validator entry; and a
registration whose nonce is at most the stored nonce leaves the state
unchanged. -/
theorem c8_registration_monotonicity
    (verifySig : ValidatorIdentityRequest → Nat → Bool) (st : CoordState)
    (r1 r2 : ValidatorIdentityRequest) (p1 p2 : Nat) :
    (r1.public_key = r2.public_key → r1.nonce < r2.nonce →
      verifySig r1 p1 = true → verifySig r2 p2 = true →
      whitelistRejects st r1.public_key true = false →
      assocGet? r1.public_key st.valid_validators = none →
      (assocGet? r2.public_key
          (handle_vi_request verifySig
            (handle_vi_request verifySig st p1 r1 true).2 p2 r2 true).2.valid_validators =
        some { p2p_peer_id := p2, validator_peer_id := r2.public_key, nonce := r2.nonce,
               address := assocGet? p2 st.p2ppeerid_2_endpoint } ∧
       assocGet? r2.public_key
          (handle_vi_request verifySig
            (handle_vi_request verifySig st p2 r2 true).2 p1 r1 true).2.valid_validators =
        some { p2p_peer_id := p2, validator_peer_id := r2.public_key, nonce := r2.nonce,
               address := assocGet? p2 st.p2ppeerid_2_endpoint })) ∧
    (∀ (r : ValidatorIdentityRequest) (p : Nat) (v : Validator),
      assocGet? r.public_key st.valid_validators = some v → r.nonce ≤ v.nonce →
      (handle_vi_request verifySig st p r true).2 = st) := by
  constructor
  · intro hid hlt hsig1 hsig2 hwl hold
    constructor
    · rw [handle_vi_insert_none verifySig st p1 r1 hwl hsig1 hold]
      set V1 : Validator :=
        { p2p_peer_id := p1, validator_peer_id := r1.public_key, nonce := r1.nonce,
          address := assocGet? p1 st.p2ppeerid_2_endpoint } with hV1
      set st1 : CoordState :=
        { st with valid_validators := assocInsert r1.public_key V1 st.valid_validators }
        with hst1
      have hwl2 : whitelistRejects st1 r2.public_key true = false := by
        rw [← hid]
        exact hwl
      have hold2 : assocGet? r2.public_key st1.valid_validators = some V1 := by
        rw [hst1, ← hid]
        exact assocGet?_insert_self r1.public_key V1 st.valid_validators
      have hlt2 : V1.nonce < r2.nonce := hlt
      rw [handle_vi_insert_some verifySig st1 p2 r2 V1 hwl2 hsig2 hold2 hlt2]
      exact assocGet?_insert_self r2.public_key _ _
    · have hwl2' : whitelistRejects st r2.public_key true = false := hid ▸ hwl
      have hold2' : assocGet? r2.public_key st.valid_validators = none := hid ▸ hold
      rw [handle_vi_insert_none verifySig st p2 r2 hwl2' hsig2 hold2']
      set V2 : Validator :=
        { p2p_peer_id := p2, validator_peer_id := r2.public_key, nonce := r2.nonce,
          address := assocGet? p2 st.p2ppeerid_2_endpoint } with hV2
      set st2 : CoordState :=
        { st with valid_validators := assocInsert r2.public_key V2 st.valid_validators }
        with hst2
      have hold1 : assocGet? r1.public_key st2.valid_validators = some V2 := by
        rw [hst2, hid]
        exact assocGet?_insert_self r2.public_key V2 st.valid_validators
      have hstale : (handle_vi_request verifySig st2 p1 r1 true).2 = st2 :=
        handle_vi_stale verifySig st2 p1 r1 V2 hold1 (by simp [hV2]; omega)
      rw [hstale, hst2]
      exact assocGet?_insert_self r2.public_key V2 st.valid_validators
  · intro r p v hold hle
    exact handle_vi_stale verifySig st p r v hold (by omega)

def emptyCoordState : CoordState :=
  { signer_whitelist := none, valid_validators := [], p2ppeerid_2_endpoint := [],
    dkg_request_mapping := [], signing_request_mapping := [],
    dkg_request_mapping_ex := [], signing_request_mapping_ex := [], auto_dkg := none }

def alwaysVerify : ValidatorIdentityRequest → Nat → Bool := fun _ _ => true

def regR1 : ValidatorIdentityRequest := { signature := 0, public_key := [40], nonce := 5 }

def regR2 : ValidatorIdentityRequest := { signature := 0, public_key := [40], nonce := 7 }

/-- Witness for C8: nonce-5 then nonce-7 registrations of identity
`[40]` end with the nonce-7 entry stored. -/
theorem c8_registration_monotonicity_witness :
    assocGet? [40]
        (handle_vi_request alwaysVerify
          (handle_vi_request alwaysVerify emptyCoordState 100 regR1 true).2
          101 regR2 true).2.valid_validators =
      some (Validator.mk 101 [40] 7 none) := by
  have h := (c8_registration_monotonicity alwaysVerify emptyCoordState regR1 regR2 100 101).1
    rfl (by decide) rfl rfl rfl rfl
  exact h.1

/-- Claim C9: with a whitelist configured and the registering identity
outside it, the signer-originated endpoint (`verify_whitelist = true`)
returns the whitelist error — replied as `Failure` — and leaves the
state unchanged, while the node endpoint (`verify_whitelist = false`)
never rejects for the whitelist: its outcome depends only on the
signature, and it leaves the state unchanged. -/
theorem c9_whitelist_enforcement (verifySig : ValidatorIdentityRequest → Nat → Bool)
    (st : CoordState) (r : ValidatorIdentityRequest) (p : Nat) (wl : List Identity)
    (hwl : st.signer_whitelist = some wl) (hnot : r.public_key ∉ wl) :
    (handle_vi_request verifySig st p r true).1 =
      .error "Validator peerid is not in whitelist" ∧
    viReplyOf (handle_vi_request verifySig st p r true).1 =
      .failure "Validator peerid is not in whitelist" ∧
    (handle_vi_request verifySig st p r true).2 = st ∧
    (handle_vi_request verifySig st p r false).1 =
      (if verifySig r p then Except.ok () else Except.error "Invalid signature") ∧
    (handle_vi_request verifySig st p r false).2 = st := by
  have hrej : whitelistRejects st r.public_key true = true := by
    simp [whitelistRejects, hwl, hnot]
  have hrej' : whitelistRejects st r.public_key false = false := by
    simp [whitelistRejects, hwl]
  refine ⟨?_, ?_, ?_, ?_, ?_⟩
  · simp [handle_vi_request, hrej]
  · simp [handle_vi_request, hrej, viReplyOf]
  · simp [handle_vi_request, hrej]
  · by_cases hsig : verifySig r p <;> simp [handle_vi_request, hrej', hsig]
  · by_cases hsig : verifySig r p <;> simp [handle_vi_request, hrej', hsig]

def whitelistedCoordState : CoordState :=
  { emptyCoordState with signer_whitelist := some [[30]] }

def regOutside : ValidatorIdentityRequest := { signature := 0, public_key := [40], nonce := 1 }

/-- Witness for C9 at a concrete whitelist and outside identity. -/
theorem c9_whitelist_enforcement_witness :
    (handle_vi_request alwaysVerify whitelistedCoordState 100 regOutside true).1 =
      .error "Validator peerid is not in whitelist" ∧
    (handle_vi_request alwaysVerify whitelistedCoordState 100 regOutside true).2 =
      whitelistedCoordState ∧
    (handle_vi_request alwaysVerify whitelistedCoordState 100 regOutside false).1 =
      .ok () := by
  have h := c9_whitelist_enforcement alwaysVerify whitelistedCoordState regOutside 100
    [[30]] rfl (by decide)
  refine ⟨h.1, h.2.2.1, ?_⟩
  rw [h.2.2.2.1]
  rfl

def mappedCoordState : CoordState :=
  { emptyCoordState with dkg_request_mapping := [(42, 7)] }

/-- Claim C2 — code bug exhibited: for the plain (non-extended) DKG and
signing responses the code calls `request_mapping.get(&request_id)
.unwrap()`, so a response whose request id is absent panics (aborting
the event loop) instead of being dropped; the extended arms drop it as
the claim states.  For a mapped id the response is honored when the
peer matches the recorded one and dropped (mapping untouched)
otherwise. -/
theorem c2_missing_request_id_panics :
    handleCoorToSigResponse emptyCoordState .dkg 7 42 = (.panicMissing, emptyCoordState) ∧
    handleCoorToSigResponse emptyCoordState .signing 7 42 =
      (.panicMissing, emptyCoordState) ∧
    handleCoorToSigResponse emptyCoordState .dkgEx 7 42 =
      (.droppedMissing, emptyCoordState) ∧
    handleCoorToSigResponse emptyCoordState .signingEx 7 42 =
      (.droppedMissing, emptyCoordState) ∧
    handleCoorToSigResponse mappedCoordState .dkg 7 42 = (.honored, emptyCoordState) ∧
    handleCoorToSigResponse mappedCoordState .dkg 8 42 =
      (.droppedMismatch, mappedCoordState) := by
  refine ⟨rfl, rfl, rfl, rfl, rfl, rfl⟩

def autoDkgActiveState : CoordState :=
  { signer_whitelist := some [[30]],
    valid_validators := [([30], Validator.mk 300 [30] 1 none)],
    p2ppeerid_2_endpoint := [], dkg_request_mapping := [], signing_request_mapping := [],
    dkg_request_mapping_ex := [], signing_request_mapping_ex := [], auto_dkg := some 2 }

/-- Claim C4 — counterexample: with auto-DKG active, the IPC
`start_dkg` command still emits a `NewKey` instruction (a DKG session is
started); only the node endpoint rejects. -/
theorem c4_counterexample :
    autoDkgActiveState.auto_dkg.isSome = true ∧
    handleStartDkgCommand autoDkgActiveState 2 CryptoType.ed25519 =
      .startedNewKey CryptoType.ed25519 [(1, [30])] 2 := by
  exact ⟨rfl, rfl⟩

/-- Claim C4 (amended): when auto-DKG is active, a node-endpoint
DKGRequest is rejected with `Failure("AutoDKG is enabled")` and no
NewKey instruction is sent, while the IPC `start_dkg` command performs
no auto-DKG check and always emits a `NewKey` instruction over the
registered validators. -/
theorem c4_autodkg_manual_newkey (st : CoordState) (ct : CryptoType)
    (ps : List Identity) (m : Nat) :
    (st.auto_dkg.isSome = true →
      handleNodeDkgRequest st ct ps m = .failureReply "AutoDKG is enabled") ∧
    handleStartDkgCommand st m ct =
      .startedNewKey ct
        (((st.valid_validators.map (fun e => e.2.validator_peer_id)).enum).map
          (fun e => (e.1 + 1, e.2))) m := by
  constructor
  · intro h
    simp [handleNodeDkgRequest, h]
  · rfl

/-- Witness for C4's amended theorem. -/
theorem c4_autodkg_manual_newkey_witness :
    handleNodeDkgRequest autoDkgActiveState CryptoType.ed25519 [[30]] 2 =
      .failureReply "AutoDKG is enabled" :=
  (c4_autodkg_manual_newkey autoDkgActiveState CryptoType.ed25519 [[30]] 2).1 rfl

def relayStateSample : CoordState :=
  { signer_whitelist := none,
    valid_validators :=
      [([20], Validator.mk 200 [20] 1 none), ([30], Validator.mk 300 [30] 1 none)],
    p2ppeerid_2_endpoint := [], dkg_request_mapping := [], signing_request_mapping := [],
    dkg_request_mapping_ex := [], signing_request_mapping_ex := [], auto_dkg := none }

def relayReqC1 : DKGRequestEx :=
  { stage := .intermediate { from_id := 99, target := .target 3 },
    base_info := { participants := [(2, [20]), (3, [30])] } }

/-- Claim C1 — counterexample: a Target(3) envelope whose `from` field
(99) is not even one of the envelope's participants — so it cannot
equal the connection's authenticated identity — is still forwarded to
participant 3's peer with a `Success` reply: the coordinator performs
no validation of `from` against the connection. -/
theorem c1_counterexample :
    (handleDkgRequestEx relayStateSample 777 (.ok relayReqC1)).forwards = [300] ∧
    (handleDkgRequestEx relayStateSample 777 (.ok relayReqC1)).reply = .success ∧
    btreeGet? 99 relayReqC1.base_info.participants = none := by
  exact ⟨rfl, rfl, rfl⟩

/-- Claim C1 (amended): `Init` from a signer is rejected with a failure
reply and nothing is forwarded; `Intermediate{Target(j)}` is forwarded
to participant j's registered peer after validating only that j is in
the envelope's participants (and resolvable to a registered validator)
— the `from` field is never compared with the connection's identity
(the outcome is invariant in `from` and in the connection peer); and
`Intermediate{Broadcast}` is forwarded to every registered participant
except `from` with a `Success` reply. -/
theorem c1_relay_switch (st : CoordState) (connPeer : Nat) (req : DKGRequestEx) :
    (req.stage = .initStage →
      handleDkgRequestEx st connPeer (.ok req) =
        { reply := .failure "Cannot send init message", forwards := [],
          sent_to_final_channel := false }) ∧
    (∀ m to_id, req.stage = .intermediate m → m.target = .target to_id →
      (∀ ident v, btreeGet? to_id req.base_info.participants = some ident →
        assocGet? ident st.valid_validators = some v →
        handleDkgRequestEx st connPeer (.ok req) =
          { reply := .success, forwards := [v.p2p_peer_id],
            sent_to_final_channel := false }) ∧
      (btreeGet? to_id req.base_info.participants = none →
        handleDkgRequestEx st connPeer (.ok req) =
          { reply := .failure "Invalid participant", forwards := [],
            sent_to_final_channel := false }) ∧
      (∀ (m' : MessageEx) (connPeer' : Nat), m'.target = .target to_id →
        handleDkgRequestEx st connPeer'
            (.ok { stage := .intermediate m', base_info := req.base_info }) =
          handleDkgRequestEx st connPeer (.ok req))) ∧
    (∀ m, req.stage = .intermediate m → m.target = .broadcast →
      (handleDkgRequestEx st connPeer (.ok req)).reply = .success ∧
      (handleDkgRequestEx st connPeer (.ok req)).forwards =
        broadcastForwards st m.from_id req.base_info.participants) := by
  obtain ⟨stage, binfo⟩ := req
  refine ⟨?_, ?_, ?_⟩
  · intro h
    simp only at h
    subst h
    rfl
  · intro m to_id hstage htarget
    simp only at hstage
    subst hstage
    obtain ⟨fid, tgt⟩ := m
    simp only at htarget
    subst htarget
    refine ⟨?_, ?_, ?_⟩
    · intro ident v hget hv
      simp [handleDkgRequestEx, hget, send_request_to_signer, hv]
    · intro hget
      simp [handleDkgRequestEx, hget]
    · intro m' connPeer' ht'
      obtain ⟨fid', tgt'⟩ := m'
      simp only at ht'
      subst ht'
      rfl
  · intro m hstage htarget
    simp only at hstage
    subst hstage
    obtain ⟨fid, tgt⟩ := m
    simp only at htarget
    subst htarget
    exact ⟨rfl, rfl⟩

def relayReqInit : DKGRequestEx :=
  { stage := .initStage, base_info := { participants := [(2, [20]), (3, [30])] } }

def relayReqTarget : DKGRequestEx :=
  { stage := .intermediate { from_id := 2, target := .target 3 },
    base_info := { participants := [(2, [20]), (3, [30])] } }

def relayReqBroadcast : DKGRequestEx :=
  { stage := .intermediate { from_id := 2, target := .broadcast },
    base_info := { participants := [(2, [20]), (3, [30])] } }

/-- Witness for C1's amended theorem at concrete envelopes. -/
theorem c1_relay_switch_witness :
    handleDkgRequestEx relayStateSample 777 (.ok relayReqInit) =
      { reply := .failure "Cannot send init message", forwards := [],
        sent_to_final_channel := false } ∧
    handleDkgRequestEx relayStateSample 777 (.ok relayReqTarget) =
      { reply := .success, forwards := [300], sent_to_final_channel := false } ∧
    (handleDkgRequestEx relayStateSample 777 (.ok relayReqBroadcast)).reply = .success := by
  have h := c1_relay_switch relayStateSample 777 relayReqInit
  have h2 := c1_relay_switch relayStateSample 777 relayReqTarget
  have h3 := c1_relay_switch relayStateSample 777 relayReqBroadcast
  refine ⟨h.1 rfl, ?_, (h3.2.2 _ rfl rfl).1⟩
  exact (h2.2.1 { from_id := 2, target := .target 3 } 3 rfl rfl).1 [30]
    (Validator.mk 300 [30] 1 none) rfl rfl

theorem mem_broadcastForwards {st : CoordState} {sender : Nat}
    {participants : List (Nat × Identity)} {e : Nat × Identity} {v : Validator}
    (he : e ∈ participants) (hne : e.1 ≠ sender)
    (hv : assocGet? e.2 st.valid_validators = some v) :
    v.p2p_peer_id ∈ broadcastForwards st sender participants := by
  rw [broadcastForwards, List.mem_filterMap]
  refine ⟨e, he, ?_⟩
  rw [if_pos hne]
  simp [send_request_to_signer, hv, Except.toOption]

/-- Claim C10: for extended Intermediate/Broadcast envelopes (DKG and
signing alike) the coordinator replies `Success` to the submitting
signer unconditionally, and every participant other than `from` whose
identity resolves to a registered validator is forwarded to — a failed
forward to some participant neither changes the reply nor removes the
forwards that succeeded. -/
theorem c10_broadcast_forwarding (st : CoordState) (connPeer : Nat)
    (dreq : DKGRequestEx) (sreq : SigningRequestEx) :
    (∀ m, dreq.stage = .intermediate m → m.target = .broadcast →
      (handleDkgRequestEx st connPeer (.ok dreq)).reply = .success ∧
      ∀ e ∈ dreq.base_info.participants, e.1 ≠ m.from_id →
        ∀ v, assocGet? e.2 st.valid_validators = some v →
          v.p2p_peer_id ∈ (handleDkgRequestEx st connPeer (.ok dreq)).forwards) ∧
    (∀ m, sreq.stage = .intermediate m → m.target = .broadcast →
      (handleSigningRequestEx st connPeer (.ok sreq)).reply = .success ∧
      ∀ e ∈ sreq.base_info.participants, e.1 ≠ m.from_id →
        ∀ v, assocGet? e.2 st.valid_validators = some v →
          v.p2p_peer_id ∈ (handleSigningRequestEx st connPeer (.ok sreq)).forwards) := by
  constructor
  · intro m hstage htarget
    obtain ⟨stage, binfo⟩ := dreq
    simp only at hstage
    subst hstage
    obtain ⟨fid, tgt⟩ := m
    simp only at htarget
    subst htarget
    refine ⟨rfl, ?_⟩
    intro e he hne v hv
    exact mem_broadcastForwards he hne hv
  · intro m hstage htarget
    obtain ⟨stage, binfo⟩ := sreq
    simp only at hstage
    subst hstage
    obtain ⟨fid, tgt⟩ := m
    simp only at htarget
    subst htarget
    refine ⟨rfl, ?_⟩
    intro e he hne v hv
    exact mem_broadcastForwards he hne hv

def relayReqBroadcastFail : DKGRequestEx :=
  { stage := .intermediate { from_id := 9, target := .broadcast },
    base_info := { participants := [(2, [50]), (3, [30])] } }

def signingReqBroadcastFail : SigningRequestEx :=
  { stage := .intermediate { from_id := 9, target := .broadcast },
    base_info := { participants := [(2, [50]), (3, [30])] } }

/-- Witness for C10: participant 2's identity `[50]` is unregistered so
its forward fails, yet the reply is `Success` and the successful
forward to participant 3's peer 300 still happens (forwards = [300]).
-/
theorem c10_broadcast_forwarding_witness :
    (handleDkgRequestEx relayStateSample 777 (.ok relayReqBroadcastFail)).reply =
      .success ∧
    300 ∈ (handleDkgRequestEx relayStateSample 777 (.ok relayReqBroadcastFail)).forwards ∧
    (handleDkgRequestEx relayStateSample 777 (.ok relayReqBroadcastFail)).forwards =
      [300] ∧
    (handleSigningRequestEx relayStateSample 777 (.ok signingReqBroadcastFail)).reply =
      .success := by
  have h := c10_broadcast_forwarding relayStateSample 777 relayReqBroadcastFail
    signingReqBroadcastFail
  have hd := h.1 { from_id := 9, target := .broadcast } rfl rfl
  have hs := h.2 { from_id := 9, target := .broadcast } rfl rfl
  refine ⟨hd.1, ?_, rfl, hs.1⟩
  exact hd.2 (3, [30]) (by simp [relayReqBroadcastFail]) (by decide)
    (Validator.mk 300 [30] 1 none) rfl

end Veritss
